import Mathlib

set_option linter.unusedVariables false

/-!
Verification development for the n8n chat application front end.

The development shallowly embeds the response-normalization pipeline of the
webhook client, the retry policy, the local-storage persistence client, the
chat state store send guard, the mixed-content renderer ordering and the
chart adapter, and proves or refutes the stated behavioural claims.
-/

/-- Model of a JSON runtime value as handled by the browser client: null,
booleans, numbers, strings, arrays and objects. Numbers are modelled as
integers, which covers every value the verified claims touch. Object fields
keep their insertion order, matching the order Object.keys reports. -/
inductive Json where
  | null : Json
  | bool : Bool → Json
  | num : Int → Json
  | str : String → Json
  | arr : List Json → Json
  | obj : List (String × Json) → Json

/-- JavaScript truthiness of a runtime value (NaN does not arise in the
integer number model). -/
def truthy : Json → Bool
  | .null => false
  | .bool b => b
  | .num n => n != 0
  | .str s => s != ""
  | .arr _ => true
  | .obj _ => true

/-- Truthiness of a possibly undefined value (none models undefined). -/
def truthyO : Option Json → Bool
  | none => false
  | some j => truthy j

/-- The test typeof v === the string object: true for objects, arrays and
null in JavaScript. -/
def typeofObject : Json → Bool
  | .obj _ => true
  | .arr _ => true
  | .null => true
  | _ => false

/-- True exactly for objects and arrays that are also truthy; the source
always pairs the typeof test with a truthiness test when it needs this. -/
def isObjLike : Json → Bool
  | .obj _ => true
  | .arr _ => true
  | _ => false

def isArrJ : Json → Bool
  | .arr _ => true
  | _ => false

/-- Numeric value of a decimal digit character. -/
def digitVal (c : Char) : Nat := c.toNat - '0'.toNat

/-- Decimal value of a digit list, as parseInt reads it. -/
def digitsVal (l : List Char) : Nat := l.foldl (fun n c => n * 10 + digitVal c) 0

/-- A canonical array index key: a nonempty digit string without a leading
zero (except the single digit zero), per the JavaScript array index rules. -/
def parseCanonicalIndex (k : String) : Option Nat :=
  match k.data with
  | [] => none
  | c :: rest =>
    if (c :: rest).all Char.isDigit && (c != '0' || rest.isEmpty) then
      some (digitsVal (c :: rest))
    else none

/-- String.prototype.startsWith, over the character lists. -/
def jsStartsWith (s p : String) : Bool := p.data.isPrefixOf s.data

/-- Property read v[k], returning none for undefined. Objects use the first
field with the key; arrays expose canonical index keys and length; strings
expose index keys and length, as in JavaScript. -/
def getProp : Json → String → Option Json
  | .obj fs, k => (fs.find? (fun p => p.1 == k)).map (fun p => p.2)
  | .arr xs, k =>
    if k == "length" then some (.num xs.length)
    else match parseCanonicalIndex k with
      | some i => xs.get? i
      | none => none
  | .str s, k =>
    if k == "length" then some (.num s.length)
    else match parseCanonicalIndex k with
      | some i => (s.data.get? i).map (fun c => .str (String.mk [c]))
      | none => none
  | _, _ => none

/-- Optional chaining o?.k on a possibly undefined value: undefined and null
short-circuit to undefined. -/
def optChain (o : Option Json) (k : String) : Option Json :=
  match o with
  | none => none
  | some .null => none
  | some j => getProp j k

/-- Plain property access e.k on a possibly undefined value: throws a
TypeError (modelled as error) when the base is undefined or null. -/
def propAccess (o : Option Json) (k : String) : Except Unit (Option Json) :=
  match o with
  | none => .error ()
  | some .null => .error ()
  | some j => .ok (getProp j k)

/-- Object.keys of a value: field names of an object in insertion order,
canonical index strings for an array, nothing otherwise. -/
def jsKeys : Json → List String
  | .obj fs => fs.map (fun p => p.1)
  | .arr xs => (List.range xs.length).map toString
  | _ => []

/-- Strict equality of a runtime value against a string literal; an object
or array is never strictly equal to a fresh string. -/
def jsEqStr (j : Json) (s : String) : Bool :=
  match j with
  | .str t => t == s
  | _ => false

mutual

/-- JavaScript String(v) string coercion; arrays join their elements with
commas, nested null elements become empty, objects print the object tag. -/
def jsToString : Json → String
  | .null => "null"
  | .bool true => "true"
  | .bool false => "false"
  | .num n => toString n
  | .str s => s
  | .arr xs => jsToStringList xs
  | .obj _ => "[object Object]"

/-- Comma join used by jsToString on arrays. -/
def jsToStringList : List Json → String
  | [] => ""
  | [x] => jsToStringElem x
  | x :: xs => jsToStringElem x ++ "," ++ jsToStringList xs

/-- An element of a joined array: null renders empty inside a join. -/
def jsToStringElem : Json → String
  | .null => ""
  | j => jsToString j

end

/-- The ASCII whitespace set String.prototype.trim removes; JavaScript also
trims some exotic Unicode spaces no verified claim depends on. -/
def jsWhitespaceChar (c : Char) : Bool :=
  c == ' ' || c == '\t' || c == '\n' || c == '\r'
    || c.toNat == 11 || c.toNat == 12

/-- JS String.prototype.trim: drop leading and trailing whitespace. -/
def jsTrim (s : String) : String :=
  String.mk (((s.data.dropWhile jsWhitespaceChar).reverse.dropWhile
    jsWhitespaceChar).reverse)

/-- String.prototype.split on a single separator character. -/
def splitCharList (c : Char) : List Char → List (List Char)
  | [] => [[]]
  | x :: xs =>
    if x == c then [] :: splitCharList c xs
    else
      match splitCharList c xs with
      | [] => [[x]]
      | g :: gs => (x :: g) :: gs

/-- content.split on the newline character. -/
def jsSplitLF (s : String) : List String := (splitCharList '\n' s.data).map String.mk

/-- Whether sub occurs as a contiguous run inside s, structurally. -/
def hasInfix (sub : List Char) : List Char → Bool
  | [] => sub.isEmpty
  | c :: rest => sub.isPrefixOf (c :: rest) || hasInfix sub rest

/-- Substring containment, modelling String.prototype.includes. -/
def jsIncludes (s sub : String) : Bool := hasInfix sub.data s.data

namespace N8NClient

/-- Loop of N8NClient.deduplicateContent: walk the lines, keep a line whose
trimmed form is empty, keep the first line with each trimmed form and drop
later lines whose trimmed form was already seen. -/
def dedupGo : List String → List String → List String
  | [], _ => []
  | line :: rest, seen =>
    let t := jsTrim line
    if t == "" then line :: dedupGo rest seen
    else if seen.contains t then dedupGo rest seen
    else line :: dedupGo rest (t :: seen)

/-- Source N8NClient.deduplicateContent on a string argument: split on LF,
deduplicate by trimmed line as in dedupGo, rejoin with LF. -/
def deduplicateContent (content : String) : String :=
  String.intercalate "\n" (dedupGo (jsSplitLF content) [])

/-- The typeof guard at the top of deduplicateContent: a non-string value is
returned unchanged. -/
def deduplicateJson : Json → Json
  | .str s => .str (deduplicateContent s)
  | j => j

/-- Source N8NClient.isMixedContent, per-item test: the item is a truthy
object value at least one of whose keys starts with text or with chart. -/
def itemHasTextOrChart (item : Json) : Bool :=
  truthy item && isObjLike item &&
    ((jsKeys item).any (fun k => jsStartsWith k "text")
      || (jsKeys item).any (fun k => jsStartsWith k "chart"))

/-- Source N8NClient.isMixedContent: an array some element of which carries
a text- or chart-prefixed key. -/
def isMixedContent : Json → Bool
  | .arr xs => xs.any itemHasTextOrChart
  | _ => false

/-- The pass-through test of validateResponse: data.type truthy,
data.messageType truthy and a content property present. -/
def passThrough (data : Json) : Bool :=
  truthyO (getProp data "type") && truthyO (getProp data "messageType")
    && (getProp data "content").isSome

/-- The messageType membership test against the six known kinds. -/
def mtValidB (j : Json) : Bool :=
  jsEqStr j "text" || jsEqStr j "json" || jsEqStr j "image"
    || jsEqStr j "chart" || jsEqStr j "error" || jsEqStr j "mixed"

/-- The outer type membership test against interim and final. -/
def tyValidB (j : Json) : Bool := jsEqStr j "interim" || jsEqStr j "final"

/-- Normalized response record. The metadata field keeps the upstream
metadata value when it was truthy; none models the freshly generated default
metadata object, whose current-time timestamp is not a JSON input value. -/
structure NResp where
  rtype : Json
  messageType : Json
  content : Json
  metadata : Option Json

/-- The expression a || b for a possibly absent left operand. -/
def orTruthy (a : Option Json) (b : Json) : Json :=
  match a with
  | none => b
  | some v => if truthy v then v else b

/-- The chained fallback content extraction, first truthy among the listed
properties, else the whole body. -/
def firstTruthy (data : Json) : List String → Json
  | [] => data
  | k :: ks =>
    match getProp data k with
    | none => firstTruthy data ks
    | some v => if truthy v then v else firstTruthy data ks

/-- The metadata passthrough data.metadata || fresh default; none models the
fresh default object. -/
def metaOf (data : Json) : Option Json :=
  match getProp data "metadata" with
  | none => none
  | some m => if truthy m then some m else none

/-- Special handling of an output field holding a JSON-encoded string: parse
it and, when the parse yields a truthy object, override content, messageType
and type from its fields. The JSON.parse of the environment is passed in as
the parse function; a parse failure (none) leaves everything unchanged. -/
def outputAdjust (parse : String → Option Json) (data : Json)
    (c mt ty : Json) : Json × Json × Json :=
  match getProp data "output" with
  | some (.str s) =>
    if s != "" then
      match parse s with
      | some p =>
        if truthy p && typeofObject p then
          (orTruthy (getProp p "content") p,
            orTruthy (getProp p "messageType") mt,
            orTruthy (getProp p "type") ty)
        else (c, mt, ty)
      | none => (c, mt, ty)
    else (c, mt, ty)
  | _ => (c, mt, ty)

/-- The heuristic branch of validateResponse, reached when the body is a
truthy object or array that does not already carry the expected shape. -/
def heuristicNormalize (parse : String → Option Json) (data : Json) : NResp :=
  let c0 := firstTruthy data ["content", "message", "response", "text", "output"]
  let mt0 := orTruthy (getProp data "messageType")
    (orTruthy (getProp data "format") (.str "text"))
  let ty0 := orTruthy (getProp data "type") (.str "final")
  let r := outputAdjust parse data c0 mt0 ty0
  let c1 := r.1
  let mt1 := r.2.1
  let ty1 := r.2.2
  let mt2 : Json :=
    if isMixedContent c1 then .str "mixed"
    else if isArrJ c1 then .str "json"
    else mt1
  let mtF := if mtValidB mt2 then mt2 else .str "text"
  let tyF := if tyValidB ty1 then ty1 else .str "final"
  { rtype := tyF
    messageType := mtF
    content := if jsEqStr mtF "text" then deduplicateJson c1 else c1
    metadata := metaOf data }

/-- Source N8NClient.validateResponse. A falsy or non-object body is wrapped
as a final text response of its string coercion; a body already carrying
truthy type, truthy messageType and a content property is passed through
as-is (text content still deduplicated); anything else goes through the
heuristic normalization. -/
def validateResponse (parse : String → Option Json) (data : Json) : NResp :=
  if !truthy data || !typeofObject data then
    { rtype := .str "final", messageType := .str "text"
      content := .str (jsToString data), metadata := none }
  else if passThrough data then
    let mtRaw := (getProp data "messageType").getD .null
    { rtype := (getProp data "type").getD .null
      messageType := mtRaw
      content :=
        if jsEqStr mtRaw "text" then deduplicateJson ((getProp data "content").getD .null)
        else (getProp data "content").getD .null
      metadata := metaOf data }
  else heuristicNormalize parse data

/-- Failure taxonomy of N8NError. -/
inductive ErrKind where
  | network
  | timeout
  | server
  | validation
deriving DecidableEq, Repr

/-- An N8NError value: kind, message and the server details when present. -/
structure N8NErr where
  kind : ErrKind
  msg : String
  status : Option Nat := none
  body : Option String := none
deriving DecidableEq, Repr

/-- Client configuration as passed to the constructor; absent optional
fields are none. -/
structure N8NClientConfigOpt where
  webhookUrl : String
  streamingUrl : String
  timeout : Option Nat
  retryAttempts : Option Nat
  retryDelay : Option Nat

/-- Fully defaulted configuration held by the client. -/
structure N8NClientConfigR where
  webhookUrl : String
  streamingUrl : String
  timeout : Nat
  retryAttempts : Nat
  retryDelay : Nat

/-- The constructor defaulting: timeout 120000, retryAttempts 3, retryDelay
1000, overridden by any provided field. -/
def mkConfig (c : N8NClientConfigOpt) : N8NClientConfigR :=
  { webhookUrl := c.webhookUrl
    streamingUrl := c.streamingUrl
    timeout := c.timeout.getD 120000
    retryAttempts := c.retryAttempts.getD 3
    retryDelay := c.retryDelay.getD 1000 }

/-- What one sendMessage attempt did: resolved, threw an N8NError, or threw
some other value. -/
inductive AttemptOutcome where
  | ok (resp : NResp)
  | fail (e : N8NErr)
  | crash

/-- The value sendMessageWithRetry settles with. -/
inductive RetryResult where
  | ok (resp : NResp)
  | fail (e : N8NErr)
  | crash

/-- The settlement a single attempt outcome maps to when it is the one the
retry loop propagates. -/
def attemptResult : AttemptOutcome → RetryResult
  | .ok r => .ok r
  | .fail e => .fail e
  | .crash => .crash

/-- Observable trace of sendMessageWithRetry: its settlement, how many
sendMessage attempts ran, and the waits inserted between attempts. -/
structure RetryTrace where
  result : RetryResult
  attempts : Nat
  delays : List Nat

/-- The N8NError thrown after the loop, reachable only when retryAttempts is
zero. -/
def maxRetryErr : N8NErr := { kind := .network, msg := "Max retry attempts reached" }

/-- Loop body of sendMessageWithRetry. The outcomes function gives the
result of the sendMessage call at each 1-based attempt number; remaining
counts the attempts the loop may still run. A validation error, the final
attempt, a success or a non-N8NError throw ends the loop; any other failure
waits retryDelay times the attempt number and retries. -/
def runRetryAux (o : Nat → AttemptOutcome) (δ : Nat) :
    Nat → Nat → RetryTrace
  | _, 0 => { result := .fail maxRetryErr, attempts := 0, delays := [] }
  | attempt, remaining + 1 =>
    match o attempt with
    | .ok r => { result := .ok r, attempts := 1, delays := [] }
    | .crash => { result := .crash, attempts := 1, delays := [] }
    | .fail e =>
      if e.kind = .validation then { result := .fail e, attempts := 1, delays := [] }
      else if remaining = 0 then { result := .fail e, attempts := 1, delays := [] }
      else
        let t := runRetryAux o δ (attempt + 1) remaining
        { result := t.result, attempts := t.attempts + 1
          delays := δ * attempt :: t.delays }

/-- Source N8NClient.sendMessageWithRetry over the configured attempt count
and delay, starting at attempt 1. -/
def sendMessageWithRetry (cfg : N8NClientConfigR) (o : Nat → AttemptOutcome) :
    RetryTrace :=
  runRetryAux o cfg.retryDelay 1 cfg.retryAttempts

/-- Request payload sent to the webhook. -/
structure N8NRequest where
  username : String
  message : String
  sessionId : String
  timestampMs : Int
  messageId : Option String

/-- One fetch invocation as the source constructs it: URL, method, headers,
optional JSON request body, and the timeout attached through an AbortSignal
when the options carry one. -/
structure FetchCall where
  url : String
  httpMethod : String
  headers : List (String × String)
  reqBody : Option N8NRequest
  signalTimeoutMs : Option Nat

/-- The fetch call issued by N8NClient.sendMessage: POST to the webhook URL
with JSON headers and the serialized request. The options object built in
the source carries method, headers and body only, so no AbortSignal and no
deadline is attached. -/
def sendMessageFetchCall (cfg : N8NClientConfigR) (req : N8NRequest) : FetchCall :=
  { url := cfg.webhookUrl
    httpMethod := "POST"
    headers := [("Content-Type", "application/json"), ("Accept", "application/json")]
    reqBody := some req
    signalTimeoutMs := none }

/-- The fetch call issued by N8NClient.healthCheck, which does attach
AbortSignal.timeout(5000). -/
def healthCheckFetchCall (cfg : N8NClientConfigR) : FetchCall :=
  { url := cfg.webhookUrl ++ "/health"
    httpMethod := "GET"
    headers := []
    reqBody := none
    signalTimeoutMs := some 5000 }

/-- What the environment did with the webhook fetch: an HTTP response, or a
rejection carrying an error name and message. -/
inductive HttpOutcome where
  | response (status : Nat) (statusText : String) (body : String)
  | thrown (name : String) (message : String)

/-- What sendMessage settles with. -/
inductive SendResult where
  | ok (resp : NResp)
  | fail (e : N8NErr)
  | crash (name : String) (message : String)

/-- Source N8NClient.sendMessage after the fetch settles. A non-2xx status
throws a server N8NError carrying status and body; a 2xx body is JSON-parsed
when possible, else kept as text, and normalized; a rejection named
TimeoutError or AbortError becomes a timeout error, a message mentioning
fetch or network becomes a network error, and anything else is rethrown. -/
def sendMessageResult (parse : String → Option Json) : HttpOutcome → SendResult
  | .response status statusText body =>
    if 200 ≤ status && status ≤ 299 then
      let data := match parse body with
        | some j => j
        | none => .str body
      .ok (validateResponse parse data)
    else
      .fail { kind := .server
              msg := "HTTP " ++ toString status ++ ": " ++ statusText
              status := some status, body := some body }
  | .thrown name message =>
    if name == "TimeoutError" || name == "AbortError" then
      .fail { kind := .timeout, msg := "Request timeout" }
    else if jsIncludes message "fetch" || jsIncludes message "network" then
      .fail { kind := .network, msg := "Network error" }
    else .crash name message

end N8NClient

/-- Stable insertion into a list ordered by a JavaScript comparator: the
element goes before the first entry the comparator places strictly after it,
so equal elements keep their arrival order, as Array.prototype.sort
guarantees for consistent comparators. -/
def jsInsertC {α : Type} (cmp : α → α → Int) (x : α) : List α → List α
  | [] => [x]
  | y :: ys => if cmp x y < 0 then x :: y :: ys else y :: jsInsertC cmp x ys

/-- Model of Array.prototype.sort with a comparator as a stable insertion
sort. For a consistent comparator this agrees with the engine sort, which is
required to be stable; for the inconsistent comparator cases exercised below
it also reproduces the run-reversal behaviour of the V8 sort on the concrete
inputs used. -/
def jsSortC {α : Type} (cmp : α → α → Int) (l : List α) : List α :=
  l.foldl (fun acc x => jsInsertC cmp x acc) []

namespace MockAPI

/-- Stored message record shape of the local-storage backend. The source
stores the timestamp as an ISO string and compares it through
Date.getTime; the round trip preserves the millisecond value, which is what
the model stores. An absent (undefined) response field is none. -/
structure MockAPIMessage where
  id : String
  sessionId : String
  content : String
  mtype : String
  timestamp : Int
  responseType : Option String
  responseContent : Option Json
  responseMetadata : Option Json

/-- Stored session record shape of the local-storage backend. -/
structure MockAPISession where
  id : String
  name : String
  createdAt : Int
  updatedAt : Int
  messageCount : Nat
  lastActivity : Int
  isActive : Bool

/-- Embedded response payload of an external Message. -/
structure RespData where
  rdType : String
  rdContent : Option Json
  rdMetadata : Option Json

/-- External message shape returned to callers. -/
structure Message where
  id : String
  sessionId : String
  content : String
  mtype : String
  timestamp : Int
  responseData : Option RespData

/-- A message to create, Omit Message id. -/
structure NewMessage where
  sessionId : String
  content : String
  mtype : String
  timestamp : Int
  responseData : Option RespData

/-- The two flat local-storage lists. -/
structure MockState where
  sessions : List MockAPISession
  messages : List MockAPIMessage

/-- Whether an object value carries a key prefixed text or chart, as tested
by the read-time shape repair. -/
def hasTextChartKey (j : Json) : Bool :=
  (jsKeys j).any (fun k => jsStartsWith k "text")
    || (jsKeys j).any (fun k => jsStartsWith k "chart")

/-- The read-time shape repair inside transformMessage: a truthy non-array
object content with a text- or chart-prefixed key is wrapped in a
one-element array and retyped mixed; everything else passes through. -/
def repairContent (rc : Option Json) (rt : String) : Option Json × String :=
  match rc with
  | some j =>
    if truthy j && typeofObject j && !isArrJ j && hasTextChartKey j then
      (some (.arr [j]), "mixed")
    else (some j, rt)
  | none => (none, rt)

/-- Source LocalStorageMockAPIClient.transformMessage: rebuild the external
message; a truthy responseType yields a responseData whose content and type
went through the shape repair. -/
def transformMessage (m : MockAPIMessage) : Message :=
  { id := m.id
    sessionId := m.sessionId
    content := m.content
    mtype := m.mtype
    timestamp := m.timestamp
    responseData :=
      match m.responseType with
      | some rt =>
        if rt == "" then none
        else
          let pr := repairContent m.responseContent rt
          some { rdType := pr.2, rdContent := pr.1, rdMetadata := m.responseMetadata }
      | none => none }

/-- The stored record createMessage builds from its input and a generated
id. -/
def toStoredMessage (msg : NewMessage) (newId : String) : MockAPIMessage :=
  { id := newId
    sessionId := msg.sessionId
    content := msg.content
    mtype := msg.mtype
    timestamp := msg.timestamp
    responseType := msg.responseData.map (fun rd => rd.rdType)
    responseContent := msg.responseData.bind (fun rd => rd.rdContent)
    responseMetadata := msg.responseData.bind (fun rd => rd.rdMetadata) }

/-- The duplicate-write guard test: same session, content and type, and
stored timestamp within one second of the incoming one. -/
def dupMatch (m : MockAPIMessage) (msg : NewMessage) : Bool :=
  m.sessionId == msg.sessionId && m.content == msg.content
    && m.mtype == msg.mtype && (m.timestamp - msg.timestamp).natAbs < 1000

/-- Source LocalStorageMockAPIClient.incrementSessionMessageCount: bump the
count and the activity stamps of the owning session when it exists; now is
the clock reading the source takes with new Date(). -/
def incrementSessionMessageCount (st : MockState) (sid : String) (now : Int) :
    MockState :=
  match st.sessions.findIdx? (fun s => s.id == sid) with
  | some i =>
    match st.sessions[i]? with
    | some s =>
      let s2 := { s with messageCount := s.messageCount + 1
                         lastActivity := now, updatedAt := now }
      { st with sessions := st.sessions.set i s2 }
    | none => st
  | none => st

/-- Source LocalStorageMockAPIClient.createMessage: build the record; when a
similar message exists (duplicate guard) return its transform and leave the
store unchanged; otherwise append the record, bump the session counters and
return the transform of the new record. newId is the generated id and now
the clock reading. -/
def createMessage (st : MockState) (msg : NewMessage) (newId : String)
    (now : Int) : Message × MockState :=
  let messageData := toStoredMessage msg newId
  match st.messages.find? (fun m => dupMatch m msg) with
  | some existing => (transformMessage existing, st)
  | none =>
    let st1 : MockState := { st with messages := st.messages ++ [messageData] }
    (transformMessage messageData, incrementSessionMessageCount st1 msg.sessionId now)

/-- Source LocalStorageMockAPIClient.getMessages: filter the stored list by
session, transform, and sort ascending by timestamp. -/
def getMessages (st : MockState) (sid : String) : List Message :=
  jsSortC (fun a b => a.timestamp - b.timestamp)
    ((st.messages.filter (fun m => m.sessionId == sid)).map transformMessage)

/-- Partial update passed to updateMessage; none models an absent field. -/
structure UpdateInput where
  content : Option String
  responseData : Option RespData

/-- The record merge updateMessage performs: each stored field keeps its old
value unless the corresponding update field is truthy (so an empty string or
an absent field never overwrites). -/
def updOne (old : MockAPIMessage) (upd : UpdateInput) : MockAPIMessage :=
  { old with
    content :=
      match upd.content with
      | some c => if c == "" then old.content else c
      | none => old.content
    responseType :=
      match upd.responseData with
      | some rd => if rd.rdType == "" then old.responseType else some rd.rdType
      | none => old.responseType
    responseContent :=
      match upd.responseData with
      | some rd =>
        match rd.rdContent with
        | some c => if truthy c then some c else old.responseContent
        | none => old.responseContent
      | none => old.responseContent
    responseMetadata :=
      match upd.responseData with
      | some rd =>
        match rd.rdMetadata with
        | some c => if truthy c then some c else old.responseMetadata
        | none => old.responseMetadata
      | none => old.responseMetadata }

/-- Source LocalStorageMockAPIClient.updateMessage: find the record by id,
throw a 404 error (modelled as error) when absent, else merge with updOne,
store and return the transform. -/
def updateMessage (st : MockState) (id : String) (upd : UpdateInput) :
    Except Unit (Message × MockState) :=
  match st.messages.findIdx? (fun m => m.id == id) with
  | none => .error ()
  | some i =>
    match st.messages[i]? with
    | none => .error ()
    | some old =>
      let merged := updOne old upd
      .ok (transformMessage merged,
        { st with messages := st.messages.set i merged })

end MockAPI

namespace ChatUI

/-- Normalized internal chart model. The data field keeps the raw dataArray
value the source ends up with, an array in every reachable surviving case. -/
structure ChartData where
  ctype : String
  title : Json
  data : Json
  xKey : String
  yKey : String
  options : List (String × Json)

/-- The chart type membership test of transformChartData. -/
def chartTypeValid (j : Json) : Bool :=
  jsEqStr j "bar" || jsEqStr j "line" || jsEqStr j "pie"
    || jsEqStr j "area" || jsEqStr j "scatter"

/-- Outcome of the try block computing dataArray: an early null return, a
thrown error the catch turns into null, or the dataArray value. -/
inductive TryRes where
  | retNull
  | thrown
  | okData (d : Json)

/-- The scatter checks on datasets[0].data: empty length returns null, a
missing x or y on the first element returns null, and reading x or y off a
null or undefined first element throws into the enclosing catch. -/
def scatterCheck (d : Json) : TryRes :=
  let lenIsZero := match getProp d "length" with
    | some (.num n) => n == 0
    | _ => false
  if lenIsZero then .retNull
  else
    match propAccess (getProp d "0") "x" with
    | .error () => .thrown
    | .ok xprop =>
      if xprop.isNone then .retNull
      else
        match propAccess (getProp d "0") "y" with
        | .error () => .thrown
        | .ok yprop => if yprop.isNone then .retNull else .okData d

/-- A dataset key as the multi-series transform derives it: ds.label when
truthy, else series followed by the dataset index. Non-string truthy labels
are coerced to strings when used as object keys. -/
def datasetKey (ds : Json) (dsIdx : Nat) : String :=
  match getProp ds "label" with
  | some l => if truthy l then jsToString l else "series" ++ toString dsIdx
  | none => "series" ++ toString dsIdx

/-- Indexed element read base[idx] where the base itself may be undefined:
throws on an undefined or null base. An out-of-range read yields undefined,
which the source stores as a property value; the model stores null for it,
a convention no verified claim reaches. -/
def indexAccess (o : Option Json) (i : Nat) : Except Unit Json :=
  match o with
  | none => .error ()
  | some .null => .error ()
  | some j => .ok ((getProp j (toString i)).getD .null)

/-- One record of the multi-series line or area transform: name is the
label and each dataset contributes its value at the label index under its
own key. Reading .label or .data off a bad dataset element throws. -/
def multiSeriesRecord (dss : List Json) (label : Json) (idx : Nat) :
    Except Unit Json := do
  let mut fields : List (String × Json) := [("name", label)]
  let mut dsIdx : Nat := 0
  for ds in dss do
    match ds with
    | .null => throw ()
    | _ =>
      let key := datasetKey ds dsIdx
      let v ← indexAccess (getProp ds "data") idx
      fields := fields ++ [(key, v)]
      dsIdx := dsIdx + 1
  return .obj fields

/-- One record of the single-series transform: name is the label and value
is datasets[0].data at the label index; reading .data off a missing first
dataset or indexing a non-indexable data value throws. -/
def singleSeriesRecord (dss : List Json) (label : Json) (idx : Nat) :
    Except Unit Json := do
  let dsData ← propAccess (dss.get? 0) "data"
  let v ← indexAccess dsData idx
  return .obj [("name", label), ("value", v)]

/-- The Chart.js labels-and-datasets transform of the source: multi-series
records for a line or area chart with more than one dataset, name and value
pairs otherwise. labels.map throws when labels is not an array. -/
def labelsTransform (ty : String) (labelsV : Json) (dss : List Json) :
    TryRes :=
  match labelsV with
  | .arr ls =>
    let recs :=
      if (ty == "line" || ty == "area") && dss.length > 1 then
        ls.enum.map fun p => multiSeriesRecord dss p.2 p.1
      else
        ls.enum.map fun p => singleSeriesRecord dss p.2 p.1
    match recs.mapM id with
    | .ok rs => .okData (.arr rs)
    | .error () => .thrown
  | _ => .thrown

/-- The branch chain after the scatter case: a plain array is used as-is; a
truthy labels field with an array datasets field goes through the Chart.js
transform; any other non-null object is wrapped in a one-element array; and
everything else returns null. -/
def restBranches (ty : String) (dataRaw : Option Json) : TryRes :=
  match dataRaw with
  | some (.arr xs) => .okData (.arr xs)
  | _ =>
    let labelsV := optChain dataRaw "labels"
    let datasetsV := match dataRaw with
      | some j => getProp j "datasets"
      | none => none
    match truthyO labelsV, datasetsV with
    | true, some (.arr dss) => labelsTransform ty (labelsV.getD .null) dss
    | _, _ =>
      match dataRaw with
      | some .null => .retNull
      | some j => if typeofObject j then .okData (.arr [j]) else .retNull
      | none => .retNull

/-- The full try block of transformChartData computing dataArray. The
scatter branch applies when the type is scatter, data.datasets is an array
and datasets[0]?.data is truthy. -/
def tryBlock (ty : String) (dataRaw : Option Json) : TryRes :=
  let datasetsV := optChain dataRaw "datasets"
  match ty == "scatter", datasetsV with
  | true, some (.arr dss) =>
    let ds0data := optChain (dss.get? 0) "data"
    if truthyO ds0data then scatterCheck (ds0data.getD .null)
    else restBranches ty dataRaw
  | _, _ => restBranches ty dataRaw

/-- The generated fallback title: the chart type capitalized, then a space
and the word Chart. -/
def capitalizeType (s : String) : String :=
  match s.data with
  | [] => " Chart"
  | c :: rest => String.mk (c.toUpper :: rest) ++ " Chart"

/-- The title fallback chain options?.title?.text, then the generated
fallback. -/
def titleFromOptions (options : Option Json) (ty : String) : Json :=
  match optChain (optChain options "title") "text" with
  | some t => if truthy t then t else .str (capitalizeType ty)
  | none => .str (capitalizeType ty)

/-- The full title chain chartConfig.title, then options?.title?.text, then
the generated fallback. -/
def chartTitle (cfg : Json) (options : Option Json) (ty : String) : Json :=
  match getProp cfg "title" with
  | some t => if truthy t then t else titleFromOptions options ty
  | none => titleFromOptions options ty

/-- The xKey and yKey selection after the try block; reading .x off a bad
first item of a nonempty scatter dataArray throws out of transformChartData
(there is no catch around this part of the source). -/
def xyKeys (ty : String) (d : Json) : Except Unit (String × String) :=
  let lenPos := match getProp d "length" with
    | some (.num n) => decide (0 < n)
    | _ => false
  if lenPos then
    let firstItem := getProp d "0"
    if ty == "scatter" then do
      let xp ← propAccess firstItem "x"
      if xp.isSome then do
        let yp ← propAccess firstItem "y"
        if yp.isSome then return ("x", "y") else return ("name", "value")
      else return ("name", "value")
    else return ("name", "value")
  else return ("name", "value")

/-- Override-or-append assignment of one key into an object field list, as
an object spread performs for each later key. -/
def setKey (fs : List (String × Json)) (k : String) (v : Json) :
    List (String × Json) :=
  if fs.any (fun p => p.1 == k) then
    fs.map (fun p => if p.1 == k then (k, v) else p)
  else fs ++ [(k, v)]

/-- The fixed default palette and flags of the chart options. -/
def defaultChartOptions : List (String × Json) :=
  [("colors", .arr [.str "hsl(var(--chart-1))", .str "hsl(var(--chart-2))",
      .str "hsl(var(--chart-3))", .str "hsl(var(--chart-4))",
      .str "hsl(var(--chart-5))"])
  , ("showLegend", .bool true), ("showGrid", .bool true)
  , ("showTooltip", .bool true), ("responsive", .bool true)]

/-- The final spread of the upstream options over the defaults. Spreading an
object merges its fields; spreading an array or a string contributes its
index keys; spreading anything else contributes nothing. -/
def spreadOptions (base : List (String × Json)) : Option Json →
    List (String × Json)
  | some (.obj fs) => fs.foldl (fun acc p => setKey acc p.1 p.2) base
  | some (.arr xs) =>
    (xs.enum).foldl (fun acc p => setKey acc (toString p.1) p.2) base
  | some (.str s) =>
    (s.data.enum).foldl
      (fun acc p => setKey acc (toString p.1) (.str (String.mk [p.2]))) base
  | _ => base

/-- Source transformChartData of ChatInterface. A falsy or non-object
config yields null; an invalid or missing type yields null; the try block
computes dataArray (its catch yields null); then title, axis keys and
options are assembled. The axis-key step can raise an uncaught TypeError,
modelled as the error case. -/
def transformChartData (cfg : Json) : Except Unit (Option ChartData) :=
  if !truthy cfg || !typeofObject cfg then .ok none
  else
    let tyV := getProp cfg "type"
    let dataRaw := getProp cfg "data"
    let options := getProp cfg "options"
    if !truthyO tyV || !chartTypeValid (tyV.getD .null) then .ok none
    else
      let ty := match tyV with
        | some (.str s) => s
        | _ => ""
      match tryBlock ty dataRaw with
      | .retNull => .ok none
      | .thrown => .ok none
      | .okData d =>
        match xyKeys ty d with
        | .error () => .error ()
        | .ok ks =>
          .ok (some { ctype := ty
                      title := chartTitle cfg options ty
                      data := d
                      xKey := ks.1
                      yKey := ks.2
                      options := spreadOptions defaultChartOptions options })

/-- The trailing numeric suffix a key matches against the digits-at-end
pattern, parsed as a decimal number; zero when there is no match. -/
def trailingNum (k : String) : Nat :=
  let revDigits := k.data.reverse.takeWhile Char.isDigit
  match revDigits with
  | [] => 0
  | _ => digitsVal revDigits.reverse

/-- Model of String.prototype.localeCompare as code point order; on the
lowercase ASCII keys the verified claims exercise the two orders agree. -/
def lexLt : List Char → List Char → Bool
  | [], [] => false
  | [], _ :: _ => true
  | _ :: _, [] => false
  | a :: as, b :: bs =>
    if a < b then true else if b < a then false else lexLt as bs

/-- Code point comparison of two strings as an integer sign. -/
def localeCmp (a b : String) : Int :=
  if lexLt a.data b.data then -1 else if a == b then 0 else 1

/-- The key comparator of MixedContentRenderer: trailing numeric suffix
first, then text before chart at an equal suffix, then localeCompare. -/
def cmpKeys (a b : String) : Int :=
  let na := trailingNum a
  let nb := trailingNum b
  if na != nb then (na : Int) - nb
  else if jsStartsWith a "text" && jsStartsWith b "chart" then -1
  else if jsStartsWith a "chart" && jsStartsWith b "text" then 1
  else localeCmp a b

/-- A fragment the renderer emits for one key of a mixed-content object: a
markdown text fragment, or a chart slot (the chart itself or the chart
error panel, both keyed by a chart-prefixed key). -/
inductive Fragment where
  | text (key : String) (value : String)
  | chart (key : String) (value : Json)

/-- The key of a fragment. -/
def Fragment.key : Fragment → String
  | .text k _ => k
  | .chart k _ => k

/-- Whether a fragment is a chart slot. -/
def Fragment.isChart : Fragment → Bool
  | .text _ _ => false
  | .chart _ _ => true

/-- What one sorted key of an item contributes: a text fragment for a
text-prefixed key with a string value, a chart slot for a chart-prefixed
key with a truthy object value, nothing otherwise. -/
def fragmentOfKey (item : Json) (k : String) : Option Fragment :=
  match getProp item k with
  | some v =>
    if jsStartsWith k "text" then
      match v with
      | .str s => some (.text k s)
      | _ => none
    else if jsStartsWith k "chart" && truthy v && isObjLike v then
      some (.chart k v)
    else none
  | none => none

/-- The fragments MixedContentRenderer emits for one item of the content
array: the item keys sorted with the comparator, each contributing through
fragmentOfKey; a falsy or non-object item contributes nothing. -/
def itemFragments (item : Json) : List Fragment :=
  if truthy item && typeofObject item then
    (jsSortC cmpKeys (jsKeys item)).filterMap (fragmentOfKey item)
  else []

/-- The full fragment sequence of MixedContentRenderer over the content
array; non-array content renders no fragments. -/
def mixedFragments : Json → List Fragment
  | .arr items => (items.map itemFragments).flatten
  | _ => []

/-- The ordering the claim asserts between two emitted fragments: the
trailing numeric suffix ascends, and at an equal suffix a chart slot never
precedes a text fragment. -/
def claimLE (f g : Fragment) : Bool :=
  trailingNum f.key < trailingNum g.key
    || (trailingNum f.key == trailingNum g.key && !(f.isChart && !g.isChart))

/-- Boolean pairwise check of a relation over a list. -/
def pairwiseB {α : Type} (r : α → α → Bool) : List α → Bool
  | [] => true
  | x :: xs => xs.all (r x) && pairwiseB r xs

end ChatUI

namespace ChatStore

/-- The type tag of a persisted chat message. -/
inductive MsgKind where
  | user
  | assistant
deriving DecidableEq, Repr

/-- A message persisted through the persistence client during sendMessage,
as far as the send-guard claims observe it. -/
structure PMsg where
  sessionId : String
  content : String
  kind : MsgKind
deriving DecidableEq, Repr

/-- The chat store state the sendMessage path touches: the active session,
the loading and error flags, the module-level in-flight guard ref, and the
list of messages persisted so far in creation order. -/
structure StoreState where
  currentSessionId : Option String
  isLoading : Bool
  error : Option String
  sending : Bool
  persisted : List PMsg

/-- How the synchronous prefix of a sendMessage call exits. -/
inductive EntryOutcome where
  | noSession
  | droppedInFlight
  | proceed
deriving DecidableEq, Repr

/-- The synchronous prefix of ChatContext.sendMessage: with no active
session it stores an error and returns; with the in-flight guard set it
returns with no state change at all; otherwise it sets the guard, clears
the error and raises the loading flag. -/
def sendMessageEntry (s : StoreState) : StoreState × EntryOutcome :=
  match s.currentSessionId with
  | none => ({ s with error := some "No session selected" }, .noSession)
  | some _ =>
    if s.sending then (s, .droppedInFlight)
    else ({ s with sending := true, error := none, isLoading := true }, .proceed)

/-- How the asynchronous body of a proceeding sendMessage call resolves:
the user-message save fails, the webhook fails after the user message was
saved, the assistant-message save fails, or everything succeeds. -/
inductive BodyOutcome where
  | userSaveFail
  | webhookFail
  | assistantSaveFail
  | success
deriving DecidableEq, Repr

/-- The asynchronous body of a proceeding sendMessage call: the user
message is persisted first; on success the webhook answer is persisted as
an assistant message with an empty display content; any failure is caught
and stored as the session error; the finally block always releases the
in-flight guard. -/
def sendMessageBody (sid content : String) (bo : BodyOutcome)
    (s : StoreState) : StoreState :=
  match bo with
  | .userSaveFail =>
    { s with error := some "Failed to send message", isLoading := false
             sending := false }
  | .webhookFail =>
    { s with persisted := s.persisted ++ [⟨sid, content, .user⟩]
             error := some "Failed to send message", isLoading := false
             sending := false }
  | .assistantSaveFail =>
    { s with persisted := s.persisted ++ [⟨sid, content, .user⟩]
             error := some "Failed to send message", isLoading := false
             sending := false }
  | .success =>
    { s with persisted := s.persisted ++ [⟨sid, content, .user⟩, ⟨sid, "", .assistant⟩]
             isLoading := false, sending := false }

/-- The number of persisted user messages in a store state. -/
def userCount (s : StoreState) : Nat :=
  (s.persisted.filter (fun m => m.kind == .user)).length

end ChatStore

namespace N8NClient

/-- Deduplication as the claim words it, for comparison with the source
behaviour: a non-blank line is dropped exactly when it is identical to a
previously seen line; blank lines are always kept. -/
def specLineDedupGo : List String → List String → List String
  | [], _ => []
  | line :: rest, seen =>
    if jsTrim line == "" then line :: specLineDedupGo rest seen
    else if seen.contains line then specLineDedupGo rest seen
    else line :: specLineDedupGo rest (line :: seen)

/-- Deduplication as the claim words it, split and rejoin included. -/
def specLineDedup (content : String) : String :=
  String.intercalate "\n" (specLineDedupGo (jsSplitLF content) [])

/-- Declarative keep test over the full list of earlier lines: keep a line
when its trimmed form is empty or no earlier line has the same trimmed
form. -/
def keepLine (pre : List String) (x : String) : Bool :=
  jsTrim x == "" || !(pre.any (fun y => jsTrim y == jsTrim x))

/-- Declarative one-pass deduplication: each line is kept by keepLine
against all lines before it, in order. -/
def declDedup (pre : List String) : List String → List String
  | [] => []
  | x :: xs =>
    if keepLine pre x then x :: declDedup (pre ++ [x]) xs
    else declDedup (pre ++ [x]) xs

end N8NClient

namespace MockAPI

/-- The read-time rewriting the round trip applies to a stored response
payload: a falsy stored type drops the payload, and a repairable content is
wrapped and retyped mixed. -/
def repairedResponseData : Option RespData → Option RespData
  | some rd =>
    if rd.rdType == "" then none
    else
      let pr := repairContent rd.rdContent rd.rdType
      some { rdType := pr.2, rdContent := pr.1, rdMetadata := rd.rdMetadata }
  | none => none

end MockAPI

namespace ChatUI

/-- The class a key sorts into at an equal numeric suffix: text first,
chart second, anything else last by the string fallback. -/
def prefixClass (k : String) : Nat :=
  if jsStartsWith k "text" then 0 else if jsStartsWith k "chart" then 1 else 2

end ChatUI

/-!
Theorems. Each claim of the behavioural specification gets one main
theorem, with a counterexample theorem where the claim fails as stated.
-/

namespace N8NClient


/-- The seen set of the dedup loop holds exactly the nonempty trimmed forms
of the lines already processed, so the stateful loop agrees with the
declarative one-pass filter over earlier lines. -/
theorem dedupGo_eq_declDedup (l : List String) :
    ∀ (pre seen : List String),
    (∀ t : String,
      seen.contains t = (!(t == "") && pre.any (fun y => jsTrim y == t))) →
    dedupGo l seen = declDedup pre l := by
  induction l with
  | nil => intro pre seen h; rfl
  | cons x xs ih =>
    intro pre seen h
    by_cases hx : jsTrim x = ""
    · have hgo : dedupGo (x :: xs) seen = x :: dedupGo xs seen := by
        simp [dedupGo, hx]
      have hkeep : keepLine pre x = true := by simp [keepLine, hx]
      rw [hgo, declDedup, hkeep, if_pos rfl]
      congr 1
      refine ih (pre ++ [x]) seen ?_
      intro t
      rw [h t]
      by_cases ht : t = ""
      · subst ht; simp
      · have hxt : (jsTrim x == t) = false := by
          rw [hx]; exact beq_eq_false_iff_ne.mpr (Ne.symm ht)
        simp [List.any_append, hxt]
    · have hxb : (jsTrim x == "") = false := beq_eq_false_iff_ne.mpr hx
      by_cases hc : seen.contains (jsTrim x) = true
      · have hpre : (pre.any fun y => jsTrim y == jsTrim x) = true := by
          have := h (jsTrim x)
          rw [hc, hxb] at this
          simpa using this.symm
        have hmem : jsTrim x ∈ seen := by
          have h2 : seen.elem (jsTrim x) = true := hc
          exact List.mem_of_elem_eq_true h2
        have hgo : dedupGo (x :: xs) seen = dedupGo xs seen := by
          simp [dedupGo, hxb, hmem]
        have hkeep : keepLine pre x = false := by
          simp [keepLine, hxb, hpre]
        rw [hgo, declDedup, hkeep, if_neg (by simp)]
        refine ih (pre ++ [x]) seen ?_
        intro t
        rw [h t]
        by_cases hxt : jsTrim x = t
        · subst hxt
          simp [List.any_append, hpre]
        · have hxtb : (jsTrim x == t) = false := beq_eq_false_iff_ne.mpr hxt
          simp [List.any_append, hxtb]
      · have hcb : seen.contains (jsTrim x) = false := by
          exact Bool.eq_false_iff.mpr hc
        have hpre : (pre.any fun y => jsTrim y == jsTrim x) = false := by
          have := h (jsTrim x)
          rw [hcb, hxb] at this
          simpa using this.symm
        have hnmem : jsTrim x ∉ seen := by
          intro hm
          exact hc (List.elem_eq_true_of_mem hm)
        have hgo : dedupGo (x :: xs) seen = x :: dedupGo xs (jsTrim x :: seen) := by
          simp [dedupGo, hxb, hnmem]
        have hkeep : keepLine pre x = true := by
          simp [keepLine, hxb, hpre]
        rw [hgo, declDedup, hkeep, if_pos rfl]
        congr 1
        refine ih (pre ++ [x]) (jsTrim x :: seen) ?_
        intro t
        by_cases hxt : jsTrim x = t
        · have h1 : ((jsTrim x :: seen).contains t) = true := by
            simp [List.contains_cons, hxt]
          rw [h1]
          have ht : (t == "") = false := by
            rw [← hxt]; exact hxb
          simp [List.any_append, ht, ← hxt, hx]
        · have hxtb : (jsTrim x == t) = false := beq_eq_false_iff_ne.mpr hxt
          have h1 : ((jsTrim x :: seen).contains t) = seen.contains t := by
            simp only [List.contains_cons, beq_eq_false_iff_ne.mpr (Ne.symm hxt),
              Bool.or_false, Bool.false_or]
          rw [h1, h t]
          simp [List.any_append, hxtb]

/-- The dedup loop only removes lines: its output is a sublist of its
input. -/
theorem dedupGo_sublist : ∀ (l seen : List String), (dedupGo l seen).Sublist l := by
  intro l
  induction l with
  | nil => intro seen; exact List.Sublist.refl _
  | cons x xs ih =>
    intro seen
    simp only [dedupGo]
    split
    · exact (ih seen).cons₂ x
    · split
      · exact (ih seen).cons x
      · exact (ih _).cons₂ x

/-- Claim C5 counterexample: the source compares trimmed lines, so the line
made of a space and the letter a is dropped after the line a, although the
two lines are not identical; the dedup the claim describes keeps it. -/
theorem deduplicateContent_counterexample :
    deduplicateContent "a\n a" = "a" ∧ specLineDedup "a\n a" = "a\n a" ∧
      deduplicateContent "a\n a" ≠ specLineDedup "a\n a" := by
  refine ⟨rfl, rfl, ?_⟩
  decide

/-- Claim C5 (amended): deduplication splits on newline and keeps a line
exactly when its trimmed form is empty or no earlier line has the same
trimmed form (order preserved, case sensitive, first occurrence wins,
whitespace-only lines always kept), then rejoins with newline; the kept
lines form a sublist of the original lines. -/
theorem deduplicateContent_drops_by_trimmed_form (s : String) :
    deduplicateContent s =
      String.intercalate "\n" (declDedup [] (jsSplitLF s)) ∧
    (dedupGo (jsSplitLF s) []).Sublist (jsSplitLF s) := by
  constructor
  · unfold deduplicateContent
    congr 1
    refine dedupGo_eq_declDedup _ [] [] ?_
    intro t
    simp
  · exact dedupGo_sublist _ _

/-- The final validation of the outer type always lands in the valid set. -/
theorem tyValidB_ite (j : Json) :
    tyValidB (if tyValidB j = true then j else .str "final") = true := by
  split
  · assumption
  · rfl

/-- The final validation of the messageType always lands in the valid set. -/
theorem mtValidB_ite (j : Json) :
    mtValidB (if mtValidB j = true then j else .str "text") = true := by
  split
  · assumption
  · rfl

/-- At the end of the heuristic branch both fields have been validated
against their fixed sets. -/
theorem heuristicNormalize_valid (parse : String → Option Json) (data : Json) :
    tyValidB (heuristicNormalize parse data).rtype = true ∧
      mtValidB (heuristicNormalize parse data).messageType = true := by
  dsimp only [heuristicNormalize]
  exact ⟨tyValidB_ite _, mtValidB_ite _⟩

/-- Claim C1 (amended): validateResponse is total by construction, and for
every JSON body that does not take the pass-through branch (a truthy type,
a truthy messageType and a present content, which are kept unvalidated) the
returned type is a member of the interim and final set and the returned
messageType a member of the six known kinds. -/
theorem validateResponse_valid_unless_passThrough
    (parse : String → Option Json) (d : Json) (h : passThrough d = false) :
    tyValidB (validateResponse parse d).rtype = true ∧
      mtValidB (validateResponse parse d).messageType = true := by
  rw [validateResponse]
  split
  · exact ⟨rfl, rfl⟩
  · split
    · rename_i h2
      rw [h] at h2
      cases h2
    · exact heuristicNormalize_valid parse d

/-- Witness for the amended claim C1 at the null body. -/
theorem validateResponse_valid_unless_passThrough_witness :
    passThrough .null = false ∧
      (tyValidB (validateResponse (fun _ => none) .null).rtype = true ∧
        mtValidB (validateResponse (fun _ => none) .null).messageType = true) :=
  ⟨rfl, validateResponse_valid_unless_passThrough (fun _ => none) .null rfl⟩

/-- Claim C1 counterexample: a body already carrying a truthy type, a
truthy messageType and a content is passed through unvalidated, so a bogus
type and messageType survive into the result, oustide both fixed sets. -/
theorem validateResponse_counterexample :
    tyValidB (validateResponse (fun _ => none)
      (.obj [("type", .str "bogus"), ("messageType", .str "weird"),
        ("content", .str "x")])).rtype = false ∧
    mtValidB (validateResponse (fun _ => none)
      (.obj [("type", .str "bogus"), ("messageType", .str "weird"),
        ("content", .str "x")])).messageType = false :=
  ⟨rfl, rfl⟩

end N8NClient

namespace N8NClient

/-- A loop iteration that ends after exactly one attempt (success, crash,
validation failure or exhausted budget) satisfies the loop
characterization. -/
theorem runRetryAux_single_spec (o : Nat → AttemptOutcome) (δ : Nat)
    (rem attempt : Nat) (res : RetryResult)
    (hred : runRetryAux o δ attempt (rem + 1) = ⟨res, 1, []⟩)
    (hres : attemptResult (o attempt) = res) :
    (runRetryAux o δ attempt (rem + 1)).attempts ≤ rem + 1 ∧
    (1 ≤ rem + 1 → 1 ≤ (runRetryAux o δ attempt (rem + 1)).attempts) ∧
    (runRetryAux o δ attempt (rem + 1)).delays =
      (List.range ((runRetryAux o δ attempt (rem + 1)).attempts - 1)).map
        (fun i => δ * (attempt + i)) ∧
    (∀ i, attempt ≤ i →
      i + 1 < attempt + (runRetryAux o δ attempt (rem + 1)).attempts →
      ∃ e, o i = .fail e ∧ e.kind ≠ .validation) ∧
    (1 ≤ (runRetryAux o δ attempt (rem + 1)).attempts →
      (runRetryAux o δ attempt (rem + 1)).result =
        attemptResult (o (attempt + (runRetryAux o δ attempt (rem + 1)).attempts - 1))) := by
  rw [hred]
  refine ⟨?_, ?_, ?_, ?_, ?_⟩
  · show (1 : Nat) ≤ rem + 1
    omega
  · intro _
    exact Nat.le_refl 1
  · rfl
  · intro i hi1 hi2
    have h2 : i + 1 < attempt + 1 := hi2
    omega
  · intro _
    show res = attemptResult (o (attempt + 1 - 1))
    rw [Nat.add_sub_cancel]
    exact hres.symm

/-- Full characterization of the retry loop from any start attempt: the
attempt count is bounded by the remaining budget and positive when the
budget is; the delays are the configured delay scaled by each attempt
number that was followed by another attempt; every attempt followed by
another failed with a retryable N8NError; and the loop settles with the
outcome of the last attempt made. -/
theorem runRetryAux_spec (o : Nat → AttemptOutcome) (δ : Nat) :
    ∀ (remaining attempt : Nat),
    (runRetryAux o δ attempt remaining).attempts ≤ remaining ∧
    (1 ≤ remaining → 1 ≤ (runRetryAux o δ attempt remaining).attempts) ∧
    (runRetryAux o δ attempt remaining).delays =
      (List.range ((runRetryAux o δ attempt remaining).attempts - 1)).map
        (fun i => δ * (attempt + i)) ∧
    (∀ i, attempt ≤ i →
      i + 1 < attempt + (runRetryAux o δ attempt remaining).attempts →
      ∃ e, o i = .fail e ∧ e.kind ≠ .validation) ∧
    (1 ≤ (runRetryAux o δ attempt remaining).attempts →
      (runRetryAux o δ attempt remaining).result =
        attemptResult (o (attempt + (runRetryAux o δ attempt remaining).attempts - 1))) := by
  intro remaining
  induction remaining with
  | zero =>
    intro attempt
    refine ⟨Nat.le_refl _, by omega, rfl, ?_, ?_⟩
    · intro i h1 h2
      simp only [runRetryAux] at h2
      omega
    · intro h
      simp only [runRetryAux] at h
      omega
  | succ rem ih =>
    intro attempt
    cases ho : o attempt with
    | ok r =>
      exact runRetryAux_single_spec o δ rem attempt (.ok r)
        (by simp [runRetryAux, ho]) (by rw [ho]; rfl)
    | crash =>
      exact runRetryAux_single_spec o δ rem attempt .crash
        (by simp [runRetryAux, ho]) (by rw [ho]; rfl)
    | fail e =>
      by_cases hv : e.kind = .validation
      · exact runRetryAux_single_spec o δ rem attempt (.fail e)
          (by simp [runRetryAux, ho, hv]) (by rw [ho]; rfl)
      · by_cases hr : rem = 0
        · subst hr
          exact runRetryAux_single_spec o δ 0 attempt (.fail e)
            (by simp [runRetryAux, ho, hv]) (by rw [ho]; rfl)
        · have hred : runRetryAux o δ attempt (rem + 1) =
              { result := (runRetryAux o δ (attempt + 1) rem).result
                attempts := (runRetryAux o δ (attempt + 1) rem).attempts + 1
                delays := δ * attempt :: (runRetryAux o δ (attempt + 1) rem).delays } := by
            simp only [runRetryAux, ho, if_neg hv, if_neg hr]
          obtain ⟨ihA, ihPos, ihD, ihR, ihLast⟩ := ih (attempt + 1)
          have hpos : 1 ≤ (runRetryAux o δ (attempt + 1) rem).attempts :=
            ihPos (by omega)
          rw [hred]
          refine ⟨by simpa using ihA, by simp, ?_, ?_, ?_⟩
          · simp only []
            rw [ihD]
            have hsucc : (runRetryAux o δ (attempt + 1) rem).attempts + 1 - 1 =
                ((runRetryAux o δ (attempt + 1) rem).attempts - 1) + 1 := by omega
            rw [hsucc, List.range_succ_eq_map, List.map_cons, List.map_map]
            congr 1
            refine List.map_congr_left ?_
            intro a _
            simp only [Function.comp]
            congr 1
            omega
          · intro i hi1 hi2
            simp only [] at hi2
            by_cases hieq : i = attempt
            · subst hieq
              exact ⟨e, ho, hv⟩
            · refine ihR i (by omega) (by omega)
          · intro h
            simp only []
            have := ihLast hpos
            rw [this]
            congr 1
            congr 1
            omega

/-- Claim C8: sendMessageWithRetry makes at most retryAttempts calls of
sendMessage (the constructor defaults retryAttempts to 3); between
consecutive attempts it waits exactly retryDelay times the attempt number
just failed, a linearly increasing backoff; an attempt is followed by
another one only when it failed with a retryable, non-validation N8NError;
and the call settles with the outcome of the last attempt made, so after
exhausting all attempts it raises the error of the final attempt. -/
theorem sendMessageWithRetry_spec (cfg : N8NClientConfigR)
    (o : Nat → AttemptOutcome) (h1 : 1 ≤ cfg.retryAttempts) :
    (∀ c : N8NClientConfigOpt, c.retryAttempts = none →
      (mkConfig c).retryAttempts = 3) ∧
    (sendMessageWithRetry cfg o).attempts ≤ cfg.retryAttempts ∧
    1 ≤ (sendMessageWithRetry cfg o).attempts ∧
    (sendMessageWithRetry cfg o).delays =
      (List.range ((sendMessageWithRetry cfg o).attempts - 1)).map
        (fun i => cfg.retryDelay * (1 + i)) ∧
    (∀ i, 1 ≤ i → i < (sendMessageWithRetry cfg o).attempts →
      ∃ e, o i = .fail e ∧ e.kind ≠ .validation) ∧
    (sendMessageWithRetry cfg o).result =
      attemptResult (o ((sendMessageWithRetry cfg o).attempts)) := by
  have hsm : sendMessageWithRetry cfg o =
      runRetryAux o cfg.retryDelay 1 cfg.retryAttempts := rfl
  obtain ⟨hA, hPos, hD, hR, hLast⟩ :=
    runRetryAux_spec o cfg.retryDelay cfg.retryAttempts 1
  have hpos : 1 ≤ (sendMessageWithRetry cfg o).attempts := by
    rw [hsm]; exact hPos h1
  refine ⟨fun c hc => by simp [mkConfig, hc], ?_, hpos, ?_, ?_, ?_⟩
  · rw [hsm]; exact hA
  · rw [hsm]; exact hD
  · intro i hi1 hi2
    rw [hsm] at hi2
    exact hR i hi1 (by omega)
  · rw [hsm]
    have := hLast (hPos h1)
    rw [this]
    congr 1
    congr 1
    omega

/-- Witness for claim C8 at a concrete configuration and outcome stream. -/
theorem sendMessageWithRetry_spec_witness :
    (sendMessageWithRetry
      (mkConfig { webhookUrl := "u", streamingUrl := "s", timeout := none
                  retryAttempts := none, retryDelay := none })
      (fun _ => .fail { kind := .network, msg := "n" })).attempts ≤
      (mkConfig { webhookUrl := "u", streamingUrl := "s", timeout := none
                  retryAttempts := none, retryDelay := none }).retryAttempts :=
  (sendMessageWithRetry_spec
    (mkConfig { webhookUrl := "u", streamingUrl := "s", timeout := none
                retryAttempts := none, retryDelay := none })
    (fun _ => .fail { kind := .network, msg := "n" }) (by decide)).2.1

end N8NClient

namespace N8NClient

/-- Claim C3 (code bug): the fetch call sendMessage issues carries no
AbortSignal and hence no deadline, whatever timeout the client was
configured with (the constructor defaults it to 120000 ms and sendMessage
reads but never uses it), while healthCheck does attach a 5000 ms signal;
the failure classification itself is as described: a non-2xx response
throws a server error carrying status code and body, a TimeoutError or
AbortError rejection maps to the timeout kind, and a rejection whose
message mentions fetch maps to the network kind. -/
theorem sendMessage_no_deadline (c : N8NClientConfigOpt) (req : N8NRequest) :
    (sendMessageFetchCall (mkConfig c) req).signalTimeoutMs = none ∧
    (c.timeout = none → (mkConfig c).timeout = 120000) ∧
    (healthCheckFetchCall (mkConfig c)).signalTimeoutMs = some 5000 ∧
    (∀ (parse : String → Option Json) status statusText body,
      ¬(200 ≤ status ∧ status ≤ 299) →
      sendMessageResult parse (.response status statusText body) =
        .fail { kind := .server
                msg := "HTTP " ++ toString status ++ ": " ++ statusText
                status := some status, body := some body }) ∧
    (∀ (parse : String → Option Json) message,
      sendMessageResult parse (.thrown "TimeoutError" message) =
        .fail { kind := .timeout, msg := "Request timeout" }) ∧
    (∀ (parse : String → Option Json) name message,
      name ≠ "TimeoutError" → name ≠ "AbortError" →
      jsIncludes message "fetch" = true →
      sendMessageResult parse (.thrown name message) =
        .fail { kind := .network, msg := "Network error" }) := by
  refine ⟨rfl, fun hc => by simp [mkConfig, hc], rfl, ?_, ?_, ?_⟩
  · intro parse status statusText body h
    simp only [sendMessageResult]
    rw [if_neg]
    simp only [Bool.and_eq_true, decide_eq_true_eq, not_and]
    intro h1 h2
    exact h ⟨h1, h2⟩
  · intro parse message
    rfl
  · intro parse name message h1 h2 h3
    simp only [sendMessageResult]
    rw [if_neg, if_pos]
    · simp [h3]
    · simp only [Bool.or_eq_true, beq_iff_eq]
      intro hcon
      rcases hcon with hh | hh
      · exact h1 hh
      · exact h2 hh

/-- Witness for claim C3: with the all-default configuration the webhook
fetch call still carries no deadline, and a 500 response classifies as a
server error with its status and body. -/
theorem sendMessage_no_deadline_witness :
    (sendMessageFetchCall
      (mkConfig { webhookUrl := "u", streamingUrl := "s", timeout := none
                  retryAttempts := none, retryDelay := none })
      { username := "user", message := "hi", sessionId := "s1"
        timestampMs := 0, messageId := none }).signalTimeoutMs = none ∧
    sendMessageResult (fun _ => none) (.response 500 "ISE" "boom") =
      .fail { kind := .server, msg := "HTTP " ++ toString 500 ++ ": " ++ "ISE"
              status := some 500, body := some "boom" } := by
  refine ⟨(sendMessage_no_deadline _ _).1, ?_⟩
  exact (sendMessage_no_deadline
    { webhookUrl := "u", streamingUrl := "s", timeout := none
      retryAttempts := none, retryDelay := none }
    { username := "user", message := "hi", sessionId := "s1"
      timestampMs := 0, messageId := none }).2.2.2.1
    (fun _ => none) 500 "ISE" "boom" (by omega)

end N8NClient

/-- Membership in a comparator insertion. -/
theorem jsInsertC_mem {α : Type} (cmp : α → α → Int) (x a : α) :
    ∀ (l : List α), a ∈ jsInsertC cmp x l ↔ a = x ∨ a ∈ l := by
  intro l
  induction l with
  | nil => simp [jsInsertC]
  | cons y ys ih =>
    simp only [jsInsertC]
    split
    · simp [List.mem_cons]
    · simp only [List.mem_cons, ih]
      tauto

/-- The comparator sort preserves membership. -/
theorem jsSortC_mem {α : Type} (cmp : α → α → Int) (a : α) (l : List α) :
    a ∈ jsSortC cmp l ↔ a ∈ l := by
  suffices h : ∀ (l acc : List α),
      (a ∈ List.foldl (fun acc x => jsInsertC cmp x acc) acc l ↔ a ∈ acc ∨ a ∈ l) by
    have := h l []
    simpa [jsSortC] using this
  intro l
  induction l with
  | nil => intro acc; simp
  | cons x xs ih =>
    intro acc
    simp only [List.foldl_cons]
    rw [ih]
    rw [jsInsertC_mem]
    simp [List.mem_cons]
    tauto

namespace MockAPI

/-- Rewriting one entry of a list with an entry that projects equally
leaves the projection of the list unchanged. -/
theorem map_set_eq {α β : Type} (f : α → β) :
    ∀ (l : List α) (i : Nat) (old v : α), l[i]? = some old → f v = f old →
      (l.set i v).map f = l.map f
  | [], i, old, v, h, _ => by simp at h
  | x :: xs, 0, old, v, h, hf => by
    simp only [List.getElem?_cons_zero, Option.some.injEq] at h
    subst h
    simp [List.set, hf]
  | x :: xs, i + 1, old, v, h, hf => by
    simp only [List.getElem?_cons_succ] at h
    simp only [List.set, List.map_cons, List.cons.injEq, true_and]
    exact map_set_eq f xs i old v h hf

/-- The session counter bump never touches the message list. -/
theorem incrementSessionMessageCount_messages (st : MockState) (sid : String)
    (now : Int) :
    (incrementSessionMessageCount st sid now).messages = st.messages := by
  unfold incrementSessionMessageCount
  split
  · split
    · rfl
    · rfl
  · rfl

/-- The transform of the record createMessage builds is the input message
with the identifier attached and the read-time repair applied to its
response payload. -/
theorem transformMessage_toStoredMessage (msg : NewMessage) (newId : String) :
    transformMessage (toStoredMessage msg newId) =
      { id := newId, sessionId := msg.sessionId, content := msg.content
        mtype := msg.mtype, timestamp := msg.timestamp
        responseData := repairedResponseData msg.responseData } := by
  cases hrd : msg.responseData with
  | none => simp [transformMessage, toStoredMessage, repairedResponseData, hrd]
  | some rd => simp [transformMessage, toStoredMessage, repairedResponseData, hrd]

/-- When no stored message matches the duplicate guard, createMessage
appends exactly the built record and returns its transform. -/
theorem createMessage_fresh (st : MockState) (msg : NewMessage)
    (newId : String) (now : Int)
    (hnodup : (st.messages.all fun m => !dupMatch m msg) = true) :
    createMessage st msg newId now =
      (transformMessage (toStoredMessage msg newId),
        incrementSessionMessageCount
          { st with messages := st.messages ++ [toStoredMessage msg newId] }
          msg.sessionId now) := by
  have hfind : st.messages.find? (fun m => dupMatch m msg) = none := by
    rw [List.find?_eq_none]
    intro x hx
    have := List.all_eq_true.mp hnodup x hx
    simp only [Bool.not_eq_true'] at this
    simp [this]
  simp [createMessage, hfind]

/-- Claim C2 (amended): on the local-storage backend, when no stored
message already matches the duplicate guard for the new message,
createMessage followed by getMessages on the same session returns a list
containing the created message with identical content and type, and with
responseData equal to the stored payload after the read-time shape repair;
the repair rewrites the payload (wrapping the content in a one-element
array and retyping it mixed) exactly when the stored content is a truthy
non-array object carrying a text- or chart-prefixed key. -/
theorem createMessage_getMessages_roundtrip (st : MockState) (msg : NewMessage)
    (newId : String) (now : Int)
    (hnodup : (st.messages.all fun m => !dupMatch m msg) = true) :
    ∃ m ∈ getMessages (createMessage st msg newId now).2 msg.sessionId,
      m.content = msg.content ∧ m.mtype = msg.mtype ∧
      m.responseData = repairedResponseData msg.responseData := by
  rw [createMessage_fresh st msg newId now hnodup]
  refine ⟨transformMessage (toStoredMessage msg newId), ?_, ?_, ?_, ?_⟩
  · unfold getMessages
    rw [jsSortC_mem]
    refine List.mem_map_of_mem transformMessage ?_
    rw [incrementSessionMessageCount_messages]
    simp only [List.filter_append]
    refine List.mem_append_right _ ?_
    simp [toStoredMessage, List.filter]
  · rw [transformMessage_toStoredMessage]
  · rw [transformMessage_toStoredMessage]
  · rw [transformMessage_toStoredMessage]

/-- Witness for the amended claim C2 on an empty store. -/
theorem createMessage_getMessages_roundtrip_witness :
    ∃ m ∈ getMessages (createMessage { sessions := [], messages := [] }
      { sessionId := "s1", content := "hello", mtype := "user", timestamp := 0
        responseData := none } "id1" 5).2 "s1",
      m.content = "hello" ∧ m.mtype = "user" ∧
      m.responseData = repairedResponseData none :=
  createMessage_getMessages_roundtrip { sessions := [], messages := [] }
    { sessionId := "s1", content := "hello", mtype := "user", timestamp := 0
      responseData := none } "id1" 5 rfl

/-- Claim C2 counterexample: a payload stored with type json whose content
is an object carrying a text-prefixed key is read back with type mixed and
its content wrapped in an array, so the round trip does not return an
identical responseData. -/
theorem createMessage_getMessages_counterexample :
    ((getMessages (createMessage { sessions := [], messages := [] }
        { sessionId := "s1", content := "", mtype := "assistant", timestamp := 0
          responseData := some { rdType := "json"
                                 rdContent := some (.obj [("text1", .str "x")])
                                 rdMetadata := none } } "id1" 5).2 "s1").map
      (fun m => m.responseData.map (fun rd => rd.rdType))) = [some "mixed"] ∧
    (some "mixed" : Option String) ≠ some "json" := by
  refine ⟨rfl, by decide⟩

end MockAPI

namespace MockAPI

/-- Claim C6: two createMessage calls served by the local-storage backend
with identical sessionId, content and type, timestamps less than one second
apart, and no prior matching message in the store, store exactly one
record: the first call appends it and the second call changes nothing and
returns the record stored by the first. -/
theorem createMessage_duplicate_suppressed (st : MockState)
    (msg1 msg2 : NewMessage) (id1 id2 : String) (now1 now2 : Int)
    (h1 : (st.messages.all fun m => !dupMatch m msg1) = true)
    (h2 : (st.messages.all fun m => !dupMatch m msg2) = true)
    (hsid : msg2.sessionId = msg1.sessionId)
    (hcontent : msg2.content = msg1.content)
    (htype : msg2.mtype = msg1.mtype)
    (hclose : (msg1.timestamp - msg2.timestamp).natAbs < 1000) :
    (createMessage st msg1 id1 now1).2.messages =
      st.messages ++ [toStoredMessage msg1 id1] ∧
    (createMessage (createMessage st msg1 id1 now1).2 msg2 id2 now2).2 =
      (createMessage st msg1 id1 now1).2 ∧
    (createMessage (createMessage st msg1 id1 now1).2 msg2 id2 now2).1 =
      (createMessage st msg1 id1 now1).1 := by
  rw [createMessage_fresh st msg1 id1 now1 h1]
  have hmsgs : (incrementSessionMessageCount
      { st with messages := st.messages ++ [toStoredMessage msg1 id1] }
      msg1.sessionId now1).messages =
      st.messages ++ [toStoredMessage msg1 id1] :=
    incrementSessionMessageCount_messages _ _ _
  have hmatch : dupMatch (toStoredMessage msg1 id1) msg2 = true := by
    simp only [dupMatch, toStoredMessage, Bool.and_eq_true, beq_iff_eq,
      decide_eq_true_eq]
    exact ⟨⟨⟨hsid.symm, hcontent.symm⟩, htype.symm⟩, by omega⟩
  have hfind : (st.messages ++ [toStoredMessage msg1 id1]).find?
      (fun m => dupMatch m msg2) = some (toStoredMessage msg1 id1) := by
    rw [List.find?_append]
    have hnone : st.messages.find? (fun m => dupMatch m msg2) = none := by
      rw [List.find?_eq_none]
      intro x hx
      have := List.all_eq_true.mp h2 x hx
      simp only [Bool.not_eq_true'] at this
      simp [this]
    rw [hnone]
    simp [List.find?, hmatch]
  refine ⟨hmsgs, ?_, ?_⟩
  · simp only [createMessage, hmsgs, hfind]
  · simp only [createMessage, hmsgs, hfind]

/-- Witness for claim C6 on an empty store and two writes half a second
apart. -/
theorem createMessage_duplicate_suppressed_witness :
    (createMessage { sessions := [], messages := [] }
      { sessionId := "s1", content := "hi", mtype := "user", timestamp := 0
        responseData := none } "id1" 5).2.messages =
      [] ++ [toStoredMessage
        { sessionId := "s1", content := "hi", mtype := "user", timestamp := 0
          responseData := none } "id1"] ∧
    (createMessage (createMessage { sessions := [], messages := [] }
        { sessionId := "s1", content := "hi", mtype := "user", timestamp := 0
          responseData := none } "id1" 5).2
      { sessionId := "s1", content := "hi", mtype := "user", timestamp := 500
        responseData := none } "id2" 6).2 =
      (createMessage { sessions := [], messages := [] }
        { sessionId := "s1", content := "hi", mtype := "user", timestamp := 0
          responseData := none } "id1" 5).2 ∧
    (createMessage (createMessage { sessions := [], messages := [] }
        { sessionId := "s1", content := "hi", mtype := "user", timestamp := 0
          responseData := none } "id1" 5).2
      { sessionId := "s1", content := "hi", mtype := "user", timestamp := 500
        responseData := none } "id2" 6).1 =
      (createMessage { sessions := [], messages := [] }
        { sessionId := "s1", content := "hi", mtype := "user", timestamp := 0
          responseData := none } "id1" 5).1 :=
  createMessage_duplicate_suppressed { sessions := [], messages := [] }
    { sessionId := "s1", content := "hi", mtype := "user", timestamp := 0
      responseData := none }
    { sessionId := "s1", content := "hi", mtype := "user", timestamp := 500
      responseData := none } "id1" "id2" 5 6 rfl rfl rfl rfl rfl (by decide)

/-- A falsy content update leaves the merged content unchanged. -/
theorem updOne_content_falsy (old : MockAPIMessage) (upd : UpdateInput)
    (h : upd.content = none ∨ upd.content = some "") :
    (updOne old upd).content = old.content := by
  rcases h with h | h
  · simp [updOne, h]
  · simp [updOne, h]

/-- The merged content is empty only when the old content was. -/
theorem updOne_content_empty (old : MockAPIMessage) (upd : UpdateInput)
    (h : (updOne old upd).content = "") : old.content = "" := by
  rcases hc : upd.content with _ | c
  · simpa [updOne, hc] using h
  · by_cases hce : c = ""
    · subst hce
      simpa [updOne, hc] using h
    · exfalso
      apply hce
      simpa [updOne, hc, hce] using h

/-- An absent responseData update leaves the three stored response fields
unchanged. -/
theorem updOne_response_none (old : MockAPIMessage) (upd : UpdateInput)
    (h : upd.responseData = none) :
    (updOne old upd).responseType = old.responseType ∧
    (updOne old upd).responseContent = old.responseContent ∧
    (updOne old upd).responseMetadata = old.responseMetadata := by
  refine ⟨?_, ?_, ?_⟩ <;> simp [updOne, h]

/-- Claim C10: on the local-storage path updateMessage keeps each stored
field whenever the corresponding update field is falsy: an empty-string
content update does not clear the stored content, an absent responseData
leaves the response fields untouched, and no update can turn a nonempty
stored content into the empty string. -/
theorem updateMessage_falsy_keeps_fields (st : MockState) (id : String)
    (upd : UpdateInput) (r : Message) (st2 : MockState)
    (hok : updateMessage st id upd = .ok (r, st2)) :
    ((upd.content = none ∨ upd.content = some "") →
      st2.messages.map (fun m => m.content) =
        st.messages.map (fun m => m.content)) ∧
    (upd.responseData = none →
      st2.messages.map (fun m => (m.responseType, m.responseContent,
        m.responseMetadata)) =
        st.messages.map (fun m => (m.responseType, m.responseContent,
          m.responseMetadata))) ∧
    (∀ (j : Nat) (m2 : MockAPIMessage), st2.messages[j]? = some m2 →
      m2.content = "" →
      ∃ m1 : MockAPIMessage, st.messages[j]? = some m1 ∧ m1.content = "") := by
  unfold updateMessage at hok
  split at hok
  · cases hok
  · rename_i i hidx
    split at hok
    · cases hok
    · rename_i old hget
      simp only [Except.ok.injEq, Prod.mk.injEq] at hok
      obtain ⟨hr, hst2⟩ := hok
      subst hst2
      refine ⟨?_, ?_, ?_⟩
      · intro hfalsy
        exact map_set_eq _ st.messages i old (updOne old upd) hget
          (updOne_content_falsy old upd hfalsy)
      · intro hnone
        obtain ⟨hA, hB, hC⟩ := updOne_response_none old upd hnone
        exact map_set_eq _ st.messages i old (updOne old upd) hget
          (by rw [hA, hB, hC])
      · intro j m2 hj hempty
        by_cases hij : i = j
        · subst hij
          rw [List.getElem?_set_self'] at hj
          rw [hget] at hj
          simp only [Option.map_eq_map, Option.map_some, Option.some.injEq] at hj
          subst hj
          exact ⟨old, hget, updOne_content_empty old upd hempty⟩
        · rw [List.getElem?_set_ne hij] at hj
          exact ⟨m2, hj, hempty⟩

/-- Witness for claim C10: the empty-string content update is falsy, and
updating a stored message with it keeps the stored content list
unchanged. -/
theorem updateMessage_falsy_keeps_fields_witness :
    (({ content := some "", responseData := none } : UpdateInput).content =
        none ∨
      ({ content := some "", responseData := none } : UpdateInput).content =
        some "") ∧
    ({ sessions := [], messages :=
        [{ id := "m1", sessionId := "s1", content := "keep",
           mtype := "user", timestamp := 0, responseType := none,
           responseContent := none, responseMetadata := none }] } :
      MockState).messages.map (fun m => m.content) =
    ({ sessions := [], messages :=
        [{ id := "m1", sessionId := "s1", content := "keep",
           mtype := "user", timestamp := 0, responseType := none,
           responseContent := none, responseMetadata := none }] } :
      MockState).messages.map (fun m => m.content) :=
  ⟨Or.inr rfl,
    (updateMessage_falsy_keeps_fields
      { sessions := [], messages :=
          [{ id := "m1", sessionId := "s1", content := "keep",
             mtype := "user", timestamp := 0, responseType := none,
             responseContent := none, responseMetadata := none }] } "m1"
      { content := some "", responseData := none }
      (transformMessage
        { id := "m1", sessionId := "s1", content := "keep",
          mtype := "user", timestamp := 0, responseType := none,
          responseContent := none, responseMetadata := none })
      { sessions := [], messages :=
          [{ id := "m1", sessionId := "s1", content := "keep",
             mtype := "user", timestamp := 0, responseType := none,
             responseContent := none, responseMetadata := none }] } rfl).1
      (Or.inr rfl)⟩

end MockAPI

namespace ChatUI

/-- With no data value at all, every branch of the try block returns
null. -/
theorem tryBlock_none (ty : String) : tryBlock ty none = .retNull := by
  cases hb : (ty == "scatter") <;>
    simp [tryBlock, restBranches, optChain, hb]

/-- Claim C4 counterexample: a pie chart description with an empty data
array yields a chart model with empty data, not null. -/
theorem transformChartData_empty_data_counterexample :
    transformChartData (.obj [("type", .str "pie"), ("data", .arr [])]) =
      .ok (some { ctype := "pie", title := .str "Pie Chart", data := .arr [],
                  xKey := "name", yKey := "value",
                  options := defaultChartOptions }) ∧
    (Except.ok (some { ctype := "pie", title := .str "Pie Chart",
                       data := .arr [], xKey := "name", yKey := "value",
                       options := defaultChartOptions }) :
      Except Unit (Option ChartData)) ≠ .ok none := by
  refine ⟨rfl, by simp⟩

/-- Claim C4 (amended): transformChartData returns null when the data field
is absent, and returns null whenever the type field is missing, falsy or
not one of the five chart kinds; an empty data array with a valid type,
however, produces a chart model with empty data instead of null. -/
theorem transformChartData_missing_or_invalid (cfg : Json) :
    (getProp cfg "data" = none → transformChartData cfg = .ok none) ∧
    ((truthyO (getProp cfg "type") = false ∨
      chartTypeValid ((getProp cfg "type").getD .null) = false) →
      transformChartData cfg = .ok none) := by
  constructor
  · intro hdata
    unfold transformChartData
    split
    · rfl
    · dsimp only
      split
      · rfl
      · rw [hdata, tryBlock_none]
  · intro hty
    unfold transformChartData
    split
    · rfl
    · dsimp only
      split
      · rfl
      · rename_i hguard
        exfalso
        simp only [Bool.not_eq_true, Bool.or_eq_false_iff,
          Bool.not_eq_false] at hguard
        obtain ⟨hg1, hg2⟩ := hguard
        rcases hty with h | h
        · rw [h] at hg1
          cases hg1
        · rw [h] at hg2
          cases hg2

/-- Witness for the amended claim C4: a pie chart description with no data
field yields null, and one with a bogus type yields null. -/
theorem transformChartData_missing_or_invalid_witness :
    transformChartData (.obj [("type", .str "pie")]) = .ok none ∧
    transformChartData (.obj [("type", .str "donut"), ("data", .arr [])]) =
      .ok none :=
  ⟨(transformChartData_missing_or_invalid (.obj [("type", .str "pie")])).1 rfl,
    (transformChartData_missing_or_invalid
      (.obj [("type", .str "donut"), ("data", .arr [])])).2 (Or.inr rfl)⟩

end ChatUI

namespace ChatStore

/-- Claim C9: while a sendMessage invocation is in flight on a store
instance (the module-level guard ref is set and a session is active), every
further sendMessage call is a silent no-op that leaves the state untouched,
stores no error and persists and queues nothing; hence in the interleaving
where a second call arrives before the first resolves, the second call is
dropped and exactly one user message is persisted by the pair, provided
the first call managed to save its user message. -/
theorem sendMessage_inflight_guard :
    (∀ s : StoreState, s.sending = true → s.currentSessionId.isSome = true →
      sendMessageEntry s = (s, .droppedInFlight)) ∧
    (∀ (s0 : StoreState) (sid c1 : String) (bo : BodyOutcome),
      s0.sending = false → s0.currentSessionId = some sid →
      bo ≠ .userSaveFail →
      (sendMessageEntry s0).2 = .proceed ∧
      sendMessageEntry (sendMessageEntry s0).1 =
        ((sendMessageEntry s0).1, .droppedInFlight) ∧
      userCount (sendMessageBody sid c1 bo
        (sendMessageEntry (sendMessageEntry s0).1).1) = userCount s0 + 1 ∧
      (sendMessageBody sid c1 bo
        (sendMessageEntry (sendMessageEntry s0).1).1).sending = false) := by
  constructor
  · intro s hsend hsome
    obtain ⟨sid, hsid⟩ := Option.isSome_iff_exists.mp hsome
    simp [sendMessageEntry, hsid, hsend]
  · intro s0 sid c1 bo hsend hsid hbo
    have hentry : sendMessageEntry s0 =
        ({ s0 with sending := true, error := none, isLoading := true },
          .proceed) := by
      simp [sendMessageEntry, hsid, hsend]
    have hentry2 : sendMessageEntry (sendMessageEntry s0).1 =
        ((sendMessageEntry s0).1, .droppedInFlight) := by
      rw [hentry]
      simp [sendMessageEntry, hsid]
    refine ⟨by rw [hentry], hentry2, ?_, ?_⟩
    · rw [hentry2, hentry]
      cases bo with
      | userSaveFail => exact absurd rfl hbo
      | webhookFail =>
        simp [sendMessageBody, userCount, List.filter_append]
      | assistantSaveFail =>
        simp [sendMessageBody, userCount, List.filter_append]
      | success =>
        simp [sendMessageBody, userCount, List.filter_append]
    · rw [hentry2, hentry]
      cases bo <;> rfl

/-- Witness for claim C9: a guarded store drops the second call unchanged,
and the concrete two-call interleaving persists exactly one user
message. -/
theorem sendMessage_inflight_guard_witness :
    sendMessageEntry { currentSessionId := some "s1", isLoading := true,
                       error := none, sending := true, persisted := [] } =
      ({ currentSessionId := some "s1", isLoading := true, error := none,
         sending := true, persisted := [] }, .droppedInFlight) ∧
    userCount (sendMessageBody "s1" "hello" .success
      (sendMessageEntry (sendMessageEntry
        { currentSessionId := some "s1", isLoading := false, error := none,
          sending := false, persisted := [] }).1).1) =
      userCount { currentSessionId := some "s1", isLoading := false,
                  error := none, sending := false, persisted := [] } + 1 :=
  ⟨sendMessage_inflight_guard.1
      { currentSessionId := some "s1", isLoading := true, error := none,
        sending := true, persisted := [] } rfl rfl,
    (sendMessage_inflight_guard.2
      { currentSessionId := some "s1", isLoading := false, error := none,
        sending := false, persisted := [] } "s1" "hello" .success rfl rfl
      (by simp)).2.2.1⟩

end ChatStore

namespace ChatUI

/-- The code point order is irreflexive. -/
theorem lexLt_irrefl : ∀ l : List Char, lexLt l l = false
  | [] => rfl
  | c :: cs => by simp [lexLt, lexLt_irrefl cs]

/-- The code point order is transitive. -/
theorem lexLt_trans : ∀ a b c : List Char,
    lexLt a b = true → lexLt b c = true → lexLt a c = true
  | [], [], _, h1, _ => by cases h1
  | [], _ :: _, [], _, h2 => by cases h2
  | [], _ :: _, _ :: _, _, _ => rfl
  | _ :: _, [], _, h1, _ => by cases h1
  | _ :: _, _ :: _, [], _, h2 => by cases h2
  | a :: as, b :: bs, c :: cs, h1, h2 => by
    simp only [lexLt] at h1 h2 ⊢
    by_cases hab : a < b
    · by_cases hbc : b < c
      · rw [if_pos (lt_trans hab hbc)]
      · by_cases hcb : c < b
        · rw [if_neg hbc, if_pos hcb] at h2
          cases h2
        · have hbceq : b = c := le_antisymm (not_lt.mp hcb) (not_lt.mp hbc)
          subst hbceq
          rw [if_pos hab]
    · by_cases hba : b < a
      · rw [if_neg hab, if_pos hba] at h1
        cases h1
      · have habeq : a = b := le_antisymm (not_lt.mp hba) (not_lt.mp hab)
        subst habeq
        rw [if_neg (lt_irrefl a), if_neg (lt_irrefl a)] at h1
        by_cases hac : a < c
        · rw [if_pos hac]
        · by_cases hca : c < a
          · rw [if_neg hac, if_pos hca] at h2
            cases h2
          · have haceq : a = c := le_antisymm (not_lt.mp hca) (not_lt.mp hac)
            subst haceq
            rw [if_neg (lt_irrefl a), if_neg (lt_irrefl a)] at h2 ⊢
            exact lexLt_trans as bs cs h1 h2

/-- The code point order is total up to equality. -/
theorem lexLt_total : ∀ a b : List Char,
    a = b ∨ lexLt a b = true ∨ lexLt b a = true
  | [], [] => Or.inl rfl
  | [], _ :: _ => Or.inr (Or.inl rfl)
  | _ :: _, [] => Or.inr (Or.inr rfl)
  | a :: as, b :: bs => by
    by_cases hab : a < b
    · exact Or.inr (Or.inl (by simp [lexLt, hab]))
    · by_cases hba : b < a
      · exact Or.inr (Or.inr (by simp [lexLt, hba]))
      · have habeq : a = b := le_antisymm (not_lt.mp hba) (not_lt.mp hab)
        subst habeq
        rcases lexLt_total as bs with h | h | h
        · exact Or.inl (by rw [h])
        · exact Or.inr (Or.inl (by simp [lexLt, lt_irrefl, h]))
        · exact Or.inr (Or.inr (by simp [lexLt, lt_irrefl, h]))

/-- Nonpositive localeCmp means order or equality. -/
theorem localeCmp_le_zero_iff (a b : String) :
    localeCmp a b ≤ 0 ↔ (lexLt a.data b.data = true ∨ a = b) := by
  unfold localeCmp
  by_cases h1 : lexLt a.data b.data = true
  · simp [h1]
  · rw [if_neg h1]
    by_cases h2 : a = b
    · simp [h2]
    · have h2b : (a == b) = false := beq_eq_false_iff_ne.mpr h2
      rw [h2b]
      simp only [Bool.false_eq_true, if_false, h1, h2, or_self]
      constructor
      · intro h
        omega
      · intro h
        cases h

/-- Reversing the arguments of a nonnegative localeCmp gives a nonpositive
one. -/
theorem localeCmp_flip (a b : String) (h : ¬ localeCmp a b < 0) :
    localeCmp b a ≤ 0 := by
  rw [localeCmp_le_zero_iff]
  unfold localeCmp at h
  by_cases h1 : lexLt a.data b.data = true
  · rw [if_pos h1] at h
    omega
  · by_cases h2 : a = b
    · exact Or.inr h2.symm
    · left
      rcases lexLt_total a.data b.data with he | hl | hl
      · exfalso
        apply h2
        obtain ⟨da⟩ := a
        obtain ⟨db⟩ := b
        exact congrArg String.mk he
      · exact absurd hl h1
      · exact hl

/-- localeCmp is transitive on its nonpositive side. -/
theorem localeCmp_trans (a b c : String) (h1 : localeCmp a b ≤ 0)
    (h2 : localeCmp b c ≤ 0) : localeCmp a c ≤ 0 := by
  rw [localeCmp_le_zero_iff] at h1 h2 ⊢
  rcases h1 with h1 | h1
  · rcases h2 with h2 | h2
    · exact Or.inl (lexLt_trans _ _ _ h1 h2)
    · subst h2
      exact Or.inl h1
  · subst h1
    exact h2

/-- A key starting with the word text does not start with the word
chart. -/
theorem text_not_chart (k : String) (h : jsStartsWith k "text" = true) :
    jsStartsWith k "chart" = false := by
  unfold jsStartsWith at *
  cases hk : k.data with
  | nil => rw [hk] at h; cases h
  | cons c cs =>
    rw [hk] at h
    have hc : c = 't' := by
      have h2 : (('t' == c) && List.isPrefixOf ['e', 'x', 't'] cs) = true := h
      have := (Bool.and_eq_true .. ▸ h2).1
      exact (beq_iff_eq.mp this).symm
    subst hc
    show (('c' == 't') && List.isPrefixOf ['h', 'a', 'r', 't'] cs) = false
    simp

/-- A key starting with the word chart does not start with the word
text. -/
theorem chart_not_text (k : String) (h : jsStartsWith k "chart" = true) :
    jsStartsWith k "text" = false := by
  by_cases ht : jsStartsWith k "text" = true
  · rw [text_not_chart k ht] at h
    cases h
  · simpa using ht

/-- A text-prefixed key has class zero. -/
theorem prefixClass_text (k : String) (h : jsStartsWith k "text" = true) :
    prefixClass k = 0 := by
  simp [prefixClass, h]

/-- A chart-prefixed key has class one. -/
theorem prefixClass_chart (k : String) (h : jsStartsWith k "chart" = true) :
    prefixClass k = 1 := by
  simp [prefixClass, chart_not_text k h, h]

/-- Reversing the arguments of a nonnegative comparator value gives a
nonpositive one, for all keys. -/
theorem cmpKeys_flip (a b : String) (h : ¬ cmpKeys a b < 0) :
    cmpKeys b a ≤ 0 := by
  unfold cmpKeys at *
  by_cases hne : (trailingNum a != trailingNum b) = true
  · rw [if_pos hne] at h
    have hne2 : (trailingNum b != trailingNum a) = true := by
      have := bne_iff_ne.mp hne
      exact bne_iff_ne.mpr (Ne.symm this)
    rw [if_pos hne2]
    have := bne_iff_ne.mp hne
    omega
  · have hnn : trailingNum a = trailingNum b := by simpa using hne
    rw [if_neg hne] at h
    have hne2 : ¬((trailingNum b != trailingNum a) = true) := by
      simp [hnn]
    rw [if_neg hne2]
    by_cases h1 : (jsStartsWith a "text" && jsStartsWith b "chart") = true
    · rw [if_pos h1] at h
      omega
    · rw [if_neg h1] at h
      by_cases h2 : (jsStartsWith a "chart" && jsStartsWith b "text") = true
      · have h2s : (jsStartsWith b "text" && jsStartsWith a "chart") = true := by
          rw [Bool.and_eq_true] at h2 ⊢
          exact ⟨h2.2, h2.1⟩
        rw [if_pos h2s]
        omega
      · rw [if_neg h2] at h
        have h1s : ¬((jsStartsWith b "text" && jsStartsWith a "chart") = true) := by
          intro hx
          apply h2
          rw [Bool.and_eq_true] at hx ⊢
          exact ⟨hx.2, hx.1⟩
        have h2s : ¬((jsStartsWith b "chart" && jsStartsWith a "text") = true) := by
          intro hx
          apply h1
          rw [Bool.and_eq_true] at hx ⊢
          exact ⟨hx.2, hx.1⟩
        rw [if_neg h1s, if_neg h2s]
        exact localeCmp_flip a b h

/-- For keys carrying a text or chart prefix, the comparator realizes the
lexicographic order on suffix number, class and code point order. -/
theorem cmpKeys_le_iff (a b : String)
    (pa : (jsStartsWith a "text" || jsStartsWith a "chart") = true)
    (pb : (jsStartsWith b "text" || jsStartsWith b "chart") = true) :
    cmpKeys a b ≤ 0 ↔
      (trailingNum a < trailingNum b ∨
        (trailingNum a = trailingNum b ∧
          (prefixClass a < prefixClass b ∨
            (prefixClass a = prefixClass b ∧ localeCmp a b ≤ 0)))) := by
  unfold cmpKeys
  by_cases hne : (trailingNum a != trailingNum b) = true
  · rw [if_pos hne]
    have hne2 := bne_iff_ne.mp hne
    constructor
    · intro h
      left
      omega
    · intro h
      rcases h with h | ⟨h, _⟩
      · omega
      · exact absurd h hne2
  · have hnn : trailingNum a = trailingNum b := by simpa using hne
    rw [if_neg hne]
    rcases Bool.or_eq_true_iff.mp pa with hA | hA <;>
      rcases Bool.or_eq_true_iff.mp pb with hB | hB
    · rw [if_neg (by simp [text_not_chart b hB]),
        if_neg (by simp [text_not_chart a hA])]
      simp [prefixClass_text a hA, prefixClass_text b hB, hnn]
    · rw [if_pos (by simp [hA, hB])]
      simp [prefixClass_text a hA, prefixClass_chart b hB, hnn]
    · rw [if_neg (by simp [chart_not_text a hA]), if_pos (by simp [hA, hB])]
      simp [prefixClass_chart a hA, prefixClass_text b hB, hnn]
    · rw [if_neg (by simp [chart_not_text a hA]),
        if_neg (by simp [chart_not_text b hB])]
      simp [prefixClass_chart a hA, prefixClass_chart b hB, hnn]

/-- The comparator is transitive on its nonpositive side for prefixed
keys. -/
theorem cmpKeys_trans (a b c : String)
    (pa : (jsStartsWith a "text" || jsStartsWith a "chart") = true)
    (pb : (jsStartsWith b "text" || jsStartsWith b "chart") = true)
    (pc : (jsStartsWith c "text" || jsStartsWith c "chart") = true)
    (h1 : cmpKeys a b ≤ 0) (h2 : cmpKeys b c ≤ 0) : cmpKeys a c ≤ 0 := by
  rw [cmpKeys_le_iff a b pa pb] at h1
  rw [cmpKeys_le_iff b c pb pc] at h2
  rw [cmpKeys_le_iff a c pa pc]
  rcases h1 with h1 | ⟨h1n, h1c⟩
  · rcases h2 with h2 | ⟨h2n, h2c⟩
    · left; omega
    · left; omega
  · rcases h2 with h2 | ⟨h2n, h2c⟩
    · left; omega
    · right
      refine ⟨by omega, ?_⟩
      rcases h1c with h1c | ⟨h1e, h1l⟩
      · rcases h2c with h2c | ⟨h2e, h2l⟩
        · left; omega
        · left; omega
      · rcases h2c with h2c | ⟨h2e, h2l⟩
        · left; omega
        · right
          exact ⟨by omega, localeCmp_trans a b c h1l h2l⟩

/-- Inserting into a list ordered by the comparator keeps it ordered, given
the flip property everywhere and transitivity on the elements involved. -/
theorem jsInsertC_pairwise {α : Type} (cmp : α → α → Int) (P : α → Prop)
    (hflip : ∀ a b, ¬ cmp a b < 0 → cmp b a ≤ 0)
    (htrans : ∀ a b c, P a → P b → P c →
      cmp a b ≤ 0 → cmp b c ≤ 0 → cmp a c ≤ 0)
    (x : α) (hx : P x) :
    ∀ l : List α, (∀ y ∈ l, P y) →
      l.Pairwise (fun a b => cmp a b ≤ 0) →
      (jsInsertC cmp x l).Pairwise (fun a b => cmp a b ≤ 0) := by
  intro l
  induction l with
  | nil =>
    intro _ _
    simp [jsInsertC]
  | cons y ys ih =>
    intro hP hpw
    rw [List.pairwise_cons] at hpw
    obtain ⟨hy, hys⟩ := hpw
    simp only [jsInsertC]
    split
    · rename_i hlt
      rw [List.pairwise_cons]
      refine ⟨?_, List.pairwise_cons.mpr ⟨hy, hys⟩⟩
      intro z hz
      rcases List.mem_cons.mp hz with rfl | hz2
      · exact le_of_lt hlt
      · exact htrans x y z hx (hP y (by simp)) (hP z (by simp [hz2]))
          (le_of_lt hlt) (hy z hz2)
    · rename_i hnlt
      rw [List.pairwise_cons]
      constructor
      · intro z hz
        rcases (jsInsertC_mem cmp x z ys).mp hz with heq | hz2
        · rw [heq]
          exact hflip x y hnlt
        · exact hy z hz2
      · exact ih (fun y2 hy2 => hP y2 (by simp [hy2])) hys

/-- The comparator sort produces a pairwise ordered list over elements
satisfying the transitivity side conditions. -/
theorem jsSortC_pairwise {α : Type} (cmp : α → α → Int) (P : α → Prop)
    (hflip : ∀ a b, ¬ cmp a b < 0 → cmp b a ≤ 0)
    (htrans : ∀ a b c, P a → P b → P c →
      cmp a b ≤ 0 → cmp b c ≤ 0 → cmp a c ≤ 0)
    (l : List α) (hl : ∀ y ∈ l, P y) :
    (jsSortC cmp l).Pairwise (fun a b => cmp a b ≤ 0) := by
  suffices h : ∀ (l acc : List α), (∀ y ∈ l, P y) → (∀ y ∈ acc, P y) →
      acc.Pairwise (fun a b => cmp a b ≤ 0) →
      (List.foldl (fun acc x => jsInsertC cmp x acc) acc l).Pairwise
        (fun a b => cmp a b ≤ 0) by
    exact h l [] hl (by simp) (by simp)
  intro l
  induction l with
  | nil =>
    intro acc _ _ h3
    simpa using h3
  | cons x xs ih =>
    intro acc h1 h2 h3
    simp only [List.foldl_cons]
    refine ih _ (fun y hy => h1 y (by simp [hy])) ?_ ?_
    · intro y hy
      rcases (jsInsertC_mem cmp x y acc).mp hy with heq | h
      · rw [heq]
        exact h1 x (by simp)
      · exact h2 y h
    · exact jsInsertC_pairwise cmp P hflip htrans x (h1 x (by simp)) acc h2 h3

/-- A fragment keeps the key it was produced from. -/
theorem fragmentOfKey_key (item : Json) (k : String) (f : Fragment)
    (h : fragmentOfKey item k = some f) : f.key = k := by
  unfold fragmentOfKey at h
  split at h
  · split at h
    · split at h
      · cases h
        rfl
      · cases h
    · split at h
      · cases h
        rfl
      · cases h
  · cases h

/-- A chart fragment comes from a chart-prefixed key. -/
theorem fragmentOfKey_chart (item : Json) (k : String) (f : Fragment)
    (h : fragmentOfKey item k = some f) (hc : f.isChart = true) :
    jsStartsWith k "chart" = true := by
  unfold fragmentOfKey at h
  split at h
  · by_cases hs : jsStartsWith k "text" = true
    · rw [if_pos hs] at h
      split at h
      · cases h
        cases hc
      · cases h
    · rw [if_neg hs] at h
      split at h
      · rename_i hcond
        rw [Bool.and_eq_true, Bool.and_eq_true] at hcond
        exact hcond.1.1
      · cases h
  · cases h

/-- A text fragment comes from a text-prefixed key. -/
theorem fragmentOfKey_text (item : Json) (k : String) (f : Fragment)
    (h : fragmentOfKey item k = some f) (hc : f.isChart = false) :
    jsStartsWith k "text" = true := by
  by_cases hs : jsStartsWith k "text" = true
  · exact hs
  · exfalso
    unfold fragmentOfKey at h
    split at h
    · rw [if_neg hs] at h
      split at h
      · cases h
        cases hc
      · cases h
    · cases h

/-- The boolean pairwise check coincides with the propositional one. -/
theorem pairwiseB_iff {α : Type} (r : α → α → Bool) :
    ∀ l : List α, pairwiseB r l = true ↔
      l.Pairwise (fun a b => r a b = true) := by
  intro l
  induction l with
  | nil => simp [pairwiseB]
  | cons x xs ih =>
    simp only [pairwiseB, Bool.and_eq_true, List.all_eq_true,
      List.pairwise_cons, ih]

/-- Claim C7 (amended): for a mixed-content object all of whose keys are
text- or chart-prefixed, the emitted fragments are sorted by trailing
numeric suffix ascending and, at an equal suffix, a chart slot never
precedes a text fragment. Keys matching neither prefix produce no fragment
but do take part in the sort, where the fallback string comparison makes
the comparator inconsistent and can break this order. -/
theorem itemFragments_sorted (item : Json)
    (hkeys : ∀ k ∈ jsKeys item,
      (jsStartsWith k "text" || jsStartsWith k "chart") = true) :
    pairwiseB claimLE (itemFragments item) = true := by
  rw [pairwiseB_iff]
  unfold itemFragments
  split
  · have hpw := jsSortC_pairwise cmpKeys
      (fun k => (jsStartsWith k "text" || jsStartsWith k "chart") = true)
      cmpKeys_flip cmpKeys_trans (jsKeys item) hkeys
    have hmemP : ∀ k ∈ jsSortC cmpKeys (jsKeys item),
        (jsStartsWith k "text" || jsStartsWith k "chart") = true :=
      fun k hk => hkeys k ((jsSortC_mem cmpKeys k (jsKeys item)).mp hk)
    have hpw2 : (jsSortC cmpKeys (jsKeys item)).Pairwise
        (fun a b => cmpKeys a b ≤ 0 ∧
          (jsStartsWith a "text" || jsStartsWith a "chart") = true ∧
          (jsStartsWith b "text" || jsStartsWith b "chart") = true) := by
      refine List.Pairwise.imp_of_mem ?_ hpw
      intro a b ha hb hr
      exact ⟨hr, hmemP a ha, hmemP b hb⟩
    refine List.Pairwise.filterMap (fragmentOfKey item) ?_ hpw2
    intro a b hR f hf g hg
    obtain ⟨hle, pa, pb⟩ := hR
    rw [Option.mem_def] at hf hg
    have hfk := fragmentOfKey_key item a f hf
    have hgk := fragmentOfKey_key item b g hg
    rw [cmpKeys_le_iff a b pa pb] at hle
    unfold claimLE
    rw [hfk, hgk]
    rcases hle with h | ⟨hn, hcl⟩
    · simp [h]
    · rw [hn]
      by_cases hfc : f.isChart = true
      · have hca : prefixClass a = 1 :=
          prefixClass_chart a (fragmentOfKey_chart item a f hf hfc)
        have hgc : g.isChart = true := by
          by_cases hgc2 : g.isChart = true
          · exact hgc2
          · exfalso
            have hbt := fragmentOfKey_text item b g hg (by simpa using hgc2)
            have hcb : prefixClass b = 0 := prefixClass_text b hbt
            rcases hcl with hcl | ⟨hcl, _⟩ <;> omega
        simp [hfc, hgc]
      · have hfc2 : f.isChart = false := by simpa using hfc
        simp [hfc2]
  · simp

/-- Claim C7 counterexample: with the key foo1, which matches neither
prefix, in the object, the comparator cycle through the string fallback
makes the sort place the chart1 slot before the text1 fragment, violating
the claimed text-before-chart order at the shared suffix one. -/
theorem mixedFragments_counterexample :
    mixedFragments (.arr [.obj [("text1", .str "hello"), ("foo1", .num 0),
        ("chart1", .obj [])]]) =
      [.chart "chart1" (.obj []), .text "text1" "hello"] ∧
    pairwiseB claimLE (mixedFragments (.arr [.obj [("text1", .str "hello"),
      ("foo1", .num 0), ("chart1", .obj [])]])) = false :=
  ⟨rfl, rfl⟩

/-- Witness for the amended claim C7: the object with keys text2, chart1
and text1 renders its fragments ordered text1, chart1, text2. -/
theorem itemFragments_sorted_witness :
    pairwiseB claimLE (itemFragments (.obj [("text2", .str "c"),
      ("chart1", .obj []), ("text1", .str "a")])) = true ∧
    mixedFragments (.arr [.obj [("text2", .str "c"), ("chart1", .obj []),
      ("text1", .str "a")]]) =
      [.text "text1" "a", .chart "chart1" (.obj []), .text "text2" "c"] :=
  ⟨itemFragments_sorted (.obj [("text2", .str "c"), ("chart1", .obj []),
      ("text1", .str "a")]) (by decide), rfl⟩

end ChatUI
